import Mathlib

/-!
Verification of the mystic_chat-backend WebSocket hub (`app/ws/server.ts`).

The development shallowly embeds the hub's data model and handlers:
pure helpers become Lean functions, the mutable server state (subscription
index, presence counter, per-socket fields, message store) becomes explicit
state passing, collaborator calls (JWT verification, Mongo lookups/writes)
become oracle parameters or explicit state components, and every outward
side effect (socket send, topic publish, broadcast, persistence write,
termination, ping) is recorded as an `HubAction` in the order the code
performs it.
-/

/-- Generic insert-if-absent, the semantics of JS `Set.add`. -/
def setAdd {α : Type} [DecidableEq α] (l : List α) (x : α) : List α :=
  if x ∈ l then l else l ++ [x]

/-- JSON values, the result of a successful `JSON.parse` (object keys unique). -/
inductive Json where
  | null
  | bool (b : Bool)
  | num (n : Int)
  | str (s : String)
  | arr (elems : List Json)
  | obj (fields : List (String × Json))

/-- Client-to-server events (`ClientEvent` in `app/utils/types.ts`). -/
inductive ClientEvent where
  | auth (token : String)
  | join_chat (chatId : String)
  | leave_chat (chatId : String)
  | ack_delivered (chatId messageId : String)
  | ack_read (chatId messageId : String)
  | ack_delivered_all (chatId : String)
  | ack_read_all (chatId : String)
  | typing_start (chatId : String)
  | typing_stop (chatId : String)
deriving DecidableEq

/-- Server-to-client events (`ServerEvent` in `app/utils/types.ts`);
only the constructors the hub's handlers emit are modelled. -/
inductive ServerEvent where
  | welcome (text : String)
  | auth_ok (userId : String)
  | auth_error (msg : String)
  | joined_chat (chatId : String)
  | join_denied (chatId reason : String)
  | left_chat (chatId : String)
  | message_delivered (chatId messageId deliveredTo : String)
  | message_read (chatId messageId readBy readAt : String)
  | messages_delivered (chatId : String) (messageIds : List String) (deliveredTo : String)
  | messages_read (chatId : String) (messageIds : List String) (readBy readAt : String)
  | typing_start (chatId userId : String)
  | typing_stop (chatId userId : String)
  | presence_state (onlineUserIds : List String)
  | presence_online (userId : String)
  | presence_offline (userId : String)
deriving DecidableEq

/-- Persistence writes issued to the Mongo collaborators. -/
inductive DbWrite where
  | addDelivered (messageId userId : String)
  | addRead (messageId userId : String)
  | addDeliveredMany (messageIds : List String) (userId : String)
  | addReadMany (messageIds : List String) (userId : String)
  | setLastSeen (userId : String)
deriving DecidableEq

/-- Observable side effects of the hub, in program order. -/
inductive HubAction where
  | send (e : ServerEvent)
  | publish (chatId : String) (e : ServerEvent)
  | publishExcept (chatId userId : String) (e : ServerEvent)
  | broadcastAll (e : ServerEvent)
  | dbWrite (w : DbWrite)
  | terminate
  | ping
deriving DecidableEq

/-- One WebSocket connection with the per-socket fields the hub attaches
(`AliveSocket` in `app/utils/types.ts` plus `readyState`). -/
structure AliveSocket where
  sid : Nat
  isOpen : Bool
  isAlive : Bool
  userId : Option String
  subs : List String
  delivered : List String
  read : List String
deriving DecidableEq

/-- `chatId -> subscribed sockets` (the module-level `chatSubs` map);
`none` means the chat id is not a key of the map. -/
abbrev ChatSubs := String → Option (List Nat)

/-- `sendJson`: drops the frame unless the socket is OPEN. -/
def sendJson (sock : AliveSocket) (e : ServerEvent) : List HubAction :=
  if sock.isOpen then [HubAction.send e] else []

/-- `subscribe(socket, chatId)`: add to the socket's sub set and to the topic's
socket set, creating the key if needed. -/
def subscribe (sock : AliveSocket) (cs : ChatSubs) (chatId : String) :
    AliveSocket × ChatSubs :=
  let sock1 := { sock with subs := setAdd sock.subs chatId }
  let set1 := setAdd ((cs chatId).getD []) sock.sid
  (sock1, fun c => if c = chatId then some set1 else cs c)

/-- `unsubscribe(socket, chatId)`: remove from both directions and delete the
topic key once its socket set is empty. -/
def unsubscribe (sock : AliveSocket) (cs : ChatSubs) (chatId : String) :
    AliveSocket × ChatSubs :=
  let sock1 := { sock with subs := sock.subs.erase chatId }
  match cs chatId with
  | none => (sock1, cs)
  | some set0 =>
    let set1 := set0.erase sock.sid
    if set1.isEmpty then (sock1, fun c => if c = chatId then none else cs c)
    else (sock1, fun c => if c = chatId then some set1 else cs c)

/-- `cleanupSocket(socket)`: unsubscribe from every chat in the socket's sub
set, then clear the set. -/
def cleanupSocket (sock : AliveSocket) (cs : ChatSubs) : AliveSocket × ChatSubs :=
  let p := sock.subs.foldl (fun (q : AliveSocket × ChatSubs) c => unsubscribe q.1 q.2 c)
    (sock, cs)
  ({ p.1 with subs := [] }, p.2)

/-- `Map.get` on the presence counter (JS `Map<string, number>`). -/
def mapGet (m : List (String × Int)) (k : String) : Option Int :=
  (m.find? (fun p => p.1 = k)).map (fun p => p.2)

/-- `Map.set`: update in place if present, else append (insertion order). -/
def mapSet (m : List (String × Int)) (k : String) (v : Int) : List (String × Int) :=
  if m.any (fun p => p.1 = k) then m.map (fun p => if p.1 = k then (k, v) else p)
  else m ++ [(k, v)]

/-- `Map.delete`. -/
def mapDelete (m : List (String × Int)) (k : String) : List (String × Int) :=
  m.filter (fun p => p.1 ≠ k)

/-- `Array.from(map.keys())`. -/
def mapKeys (m : List (String × Int)) : List String :=
  m.map (fun p => p.1)

/-- `setOnline(userId)`: bump the user's connection count; broadcast
`presence_online` only on the 0 to 1 transition. -/
def setOnline (m : List (String × Int)) (userId : String) :
    List (String × Int) × List HubAction :=
  let n : Int := (mapGet m userId).getD 0 + 1
  (mapSet m userId n,
    if n = 1 then [HubAction.broadcastAll (ServerEvent.presence_online userId)] else [])

/-- `setOffline(userId)`: drop the count; on reaching zero delete the key,
broadcast `presence_offline` and issue the last-seen write. -/
def setOffline (m : List (String × Int)) (userId : String) :
    List (String × Int) × List HubAction :=
  let n : Int := (mapGet m userId).getD 0 - 1
  if n ≤ 0 then
    (mapDelete m userId,
      [HubAction.broadcastAll (ServerEvent.presence_offline userId),
       HubAction.dbWrite (DbWrite.setLastSeen userId)])
  else (mapSet m userId n, [])

/-- `sendPresenceSnapshot(socket)`. -/
def sendPresenceSnapshot (m : List (String × Int)) (sock : AliveSocket) : List HubAction :=
  sendJson sock (ServerEvent.presence_state (mapKeys m))

/-- One persisted message document (the fields the hub touches). -/
structure MsgDoc where
  mid : String
  chatId : String
  senderId : String
  deliveredTo : List String
  readBy : List String
deriving DecidableEq

/-- The message collection, in store order. -/
abbrev MsgDb := List MsgDoc

/-- `Message.updateOne({_id}, {$addToSet: {deliveredTo: userId}})`. -/
def dbAddDelivered (db : MsgDb) (messageId userId : String) : MsgDb :=
  db.map (fun d =>
    if d.mid = messageId then { d with deliveredTo := setAdd d.deliveredTo userId } else d)

/-- `Message.updateOne({_id}, {$addToSet: {readBy: userId}})`. -/
def dbAddRead (db : MsgDb) (messageId userId : String) : MsgDb :=
  db.map (fun d =>
    if d.mid = messageId then { d with readBy := setAdd d.readBy userId } else d)

/-- `Message.updateMany({_id: {$in: ids}}, {$addToSet: {deliveredTo}})`. -/
def dbAddDeliveredMany (db : MsgDb) (ids : List String) (userId : String) : MsgDb :=
  db.map (fun d =>
    if d.mid ∈ ids then { d with deliveredTo := setAdd d.deliveredTo userId } else d)

/-- `Message.updateMany({_id: {$in: ids}}, {$addToSet: {readBy}})`. -/
def dbAddReadMany (db : MsgDb) (ids : List String) (userId : String) : MsgDb :=
  db.map (fun d =>
    if d.mid ∈ ids then { d with readBy := setAdd d.readBy userId } else d)

/-- `Message.find({chatId, senderId: {$ne: u}, deliveredTo: {$ne: u}})` mapped
to id strings. -/
def findUndelivered (db : MsgDb) (chatId userId : String) : List String :=
  (db.filter (fun d =>
    decide (d.chatId = chatId ∧ d.senderId ≠ userId ∧ userId ∉ d.deliveredTo))).map
    (fun d => d.mid)

/-- `Message.find({chatId, senderId: {$ne: u}, readBy: {$ne: u}})` mapped to ids. -/
def findUnread (db : MsgDb) (chatId userId : String) : List String :=
  (db.filter (fun d =>
    decide (d.chatId = chatId ∧ d.senderId ≠ userId ∧ userId ∉ d.readBy))).map
    (fun d => d.mid)

/-- Field access on a parsed JSON object. -/
def getField (fields : List (String × Json)) (key : String) : Option Json :=
  (fields.find? (fun p => p.1 = key)).map (fun p => p.2)

/-- Field access requiring `typeof x === "string"`. -/
def getStr (fields : List (String × Json)) (key : String) : Option String :=
  match getField fields key with
  | some (Json.str s) => some s
  | _ => none

/-- `parseClientEvent(raw)`: `none` input models a `JSON.parse` throw; any
frame not matching one of the exact client-event shapes yields `none`. -/
def parseClientEvent (raw : Option Json) : Option ClientEvent :=
  match raw with
  | none => none
  | some (Json.obj fields) =>
    match getStr fields "type" with
    | some t =>
      if t = "auth" then (getStr fields "token").map ClientEvent.auth
      else if t = "join_chat" then (getStr fields "chatId").map ClientEvent.join_chat
      else if t = "leave_chat" then (getStr fields "chatId").map ClientEvent.leave_chat
      else if t = "ack_delivered" then
        match getStr fields "chatId", getStr fields "messageId" with
        | some c, some m => some (ClientEvent.ack_delivered c m)
        | _, _ => none
      else if t = "ack_read" then
        match getStr fields "chatId", getStr fields "messageId" with
        | some c, some m => some (ClientEvent.ack_read c m)
        | _, _ => none
      else if t = "ack_delivered_all" then
        (getStr fields "chatId").map ClientEvent.ack_delivered_all
      else if t = "ack_read_all" then
        (getStr fields "chatId").map ClientEvent.ack_read_all
      else if t = "typing_start" then
        (getStr fields "chatId").map ClientEvent.typing_start
      else if t = "typing_stop" then
        (getStr fields "chatId").map ClientEvent.typing_stop
      else none
    | none => none
  | some _ => none

/-- `Types.ObjectId.isValid` on strings: 24 hex chars or a 12-char string. -/
def isValidObjectId (s : String) : Bool :=
  (decide (s.length = 24) && s.toList.all (fun c =>
    c.isDigit || (decide ('a' ≤ c) && decide (c ≤ 'f'))
      || (decide ('A' ≤ c) && decide (c ≤ 'F'))))
  || decide (s.length = 12)

/-- The hub state shared across connections: subscription index, presence
counter, and the collaborator stores the handlers consult (chat membership,
message documents, the current timestamp for `readAt`). -/
structure WState where
  cs : ChatSubs
  userConnCount : List (String × Int)
  chats : String → Option (List String)
  db : MsgDb
  now : String

/-- The `join_chat` continuation after the awaited `Chat.findById` resolves
with `chat` (the members list, or `none` for a missing chat): membership
check, then `subscribe` and `joined_chat` / `join_denied`. -/
def joinChatResume (st : WState) (sock : AliveSocket) (chatId : String)
    (chat : Option (List String)) : WState × AliveSocket × List HubAction :=
  match chat with
  | none => (st, sock, sendJson sock (ServerEvent.join_denied chatId "Chat not found"))
  | some members =>
    if members.any (fun m => sock.userId = some m) then
      let p := subscribe sock st.cs chatId
      ({ st with cs := p.2 }, p.1, sendJson p.1 (ServerEvent.joined_chat chatId))
    else (st, sock, sendJson sock (ServerEvent.join_denied chatId "Not a chat member"))

/-- Dispatch of a parsed non-`auth` event on an authenticated socket
(`uid` is the socket's bound user id). -/
def handleAuthedEvent (st : WState) (sock : AliveSocket) (uid : String)
    (evt : ClientEvent) : WState × AliveSocket × List HubAction :=
  match evt with
  | ClientEvent.auth _ => (st, sock, [])
  | ClientEvent.join_chat chatId =>
    if isValidObjectId chatId then joinChatResume st sock chatId (st.chats chatId)
    else (st, sock, sendJson sock (ServerEvent.join_denied chatId "Invalid chatId"))
  | ClientEvent.leave_chat chatId =>
    let p := unsubscribe sock st.cs chatId
    ({ st with cs := p.2 }, p.1, sendJson p.1 (ServerEvent.left_chat chatId))
  | ClientEvent.ack_delivered chatId messageId =>
    if chatId ∈ sock.subs then
      let key := chatId ++ ":" ++ messageId
      if key ∈ sock.delivered then (st, sock, [])
      else
        let sock1 := { sock with delivered := setAdd sock.delivered key }
        ({ st with db := dbAddDelivered st.db messageId uid }, sock1,
          [HubAction.dbWrite (DbWrite.addDelivered messageId uid),
           HubAction.publish chatId (ServerEvent.message_delivered chatId messageId uid)])
    else (st, sock, [])
  | ClientEvent.ack_read chatId messageId =>
    if chatId ∈ sock.subs then
      let key := chatId ++ ":" ++ messageId
      if key ∈ sock.read then (st, sock, [])
      else
        let sock1 := { sock with read := setAdd sock.read key }
        ({ st with db := dbAddRead st.db messageId uid }, sock1,
          [HubAction.dbWrite (DbWrite.addRead messageId uid),
           HubAction.publish chatId (ServerEvent.message_read chatId messageId uid st.now)])
    else (st, sock, [])
  | ClientEvent.ack_delivered_all chatId =>
    if chatId ∈ sock.subs then
      let ids := findUndelivered st.db chatId uid
      if ids.isEmpty then (st, sock, [])
      else
        ({ st with db := dbAddDeliveredMany st.db ids uid }, sock,
          [HubAction.dbWrite (DbWrite.addDeliveredMany ids uid),
           HubAction.publish chatId (ServerEvent.messages_delivered chatId ids uid)])
    else (st, sock, [])
  | ClientEvent.ack_read_all chatId =>
    if chatId ∈ sock.subs then
      let ids := findUnread st.db chatId uid
      if ids.isEmpty then (st, sock, [])
      else
        ({ st with db := dbAddReadMany st.db ids uid }, sock,
          [HubAction.dbWrite (DbWrite.addReadMany ids uid),
           HubAction.publish chatId (ServerEvent.messages_read chatId ids uid st.now)])
    else (st, sock, [])
  | ClientEvent.typing_start chatId =>
    if chatId ∈ sock.subs then
      (st, sock, [HubAction.publishExcept chatId uid (ServerEvent.typing_start chatId uid)])
    else (st, sock, [])
  | ClientEvent.typing_stop chatId =>
    if chatId ∈ sock.subs then
      (st, sock, [HubAction.publishExcept chatId uid (ServerEvent.typing_stop chatId uid)])
    else (st, sock, [])

/-- The socket's `message` listener. `verify` is the JWT collaborator
(`verifyJwt`): an error value is a thrown verification failure. -/
def handleMessage (verify : String → Except String String) (st : WState)
    (sock : AliveSocket) (raw : Option Json) : WState × AliveSocket × List HubAction :=
  match parseClientEvent raw with
  | none => (st, sock, [])
  | some (ClientEvent.auth token) =>
    match verify token with
    | Except.ok id =>
      let p1 :=
        match sock.userId with
        | some old =>
          if old ≠ id then setOffline st.userConnCount old else (st.userConnCount, [])
        | none => (st.userConnCount, [])
      let sock1 := { sock with userId := some id }
      let snapActs := sendPresenceSnapshot p1.1 sock1
      let p2 := setOnline p1.1 id
      ({ st with userConnCount := p2.1 }, sock1,
        p1.2 ++ snapActs ++ p2.2 ++ sendJson sock1 (ServerEvent.auth_ok id))
    | Except.error msg =>
      (st, sock, sendJson sock (ServerEvent.auth_error msg) ++ [HubAction.terminate])
  | some evt =>
    match sock.userId with
    | none =>
      (st, sock,
        sendJson sock (ServerEvent.auth_error "Authenticate first") ++ [HubAction.terminate])
    | some uid => handleAuthedEvent st sock uid evt

/-- `finalizeDisconnect`: runs on close/error; unsubscribe everywhere, then
decrement presence for the bound user, if any. -/
def finalizeDisconnect (st : WState) (sock : AliveSocket) :
    WState × AliveSocket × List HubAction :=
  let p := cleanupSocket sock st.cs
  match sock.userId with
  | some u =>
    let q := setOffline st.userConnCount u
    ({ st with cs := p.2, userConnCount := q.1 }, p.1, q.2)
  | none => ({ st with cs := p.2 }, p.1, [])

/-- The heartbeat interval body: terminate sockets whose liveness flag is
still false, clear the flag on and ping the rest. Returns the surviving
sockets and the per-socket actions. -/
def heartbeatSweep (socks : List AliveSocket) :
    List AliveSocket × List (Nat × HubAction) :=
  match socks with
  | [] => ([], [])
  | s :: rest =>
    let p := heartbeatSweep rest
    if s.isAlive then ({ s with isAlive := false } :: p.1, (s.sid, HubAction.ping) :: p.2)
    else (p.1, (s.sid, HubAction.terminate) :: p.2)

/-- The socket's `pong` listener. -/
def onPong (sock : AliveSocket) : AliveSocket :=
  { sock with isAlive := true }

/-- Run a sequence of inbound frames on one connection, accumulating the
emitted actions. -/
def runFrames (verify : String → Except String String) (st : WState)
    (sock : AliveSocket) : List (Option Json) → WState × AliveSocket × List HubAction
  | [] => (st, sock, [])
  | r :: rest =>
    let p := handleMessage verify st sock r
    let q := runFrames verify p.1 p.2.1 rest
    (q.1, q.2.1, p.2.2 ++ q.2.2)

/-- Whether a client event is an `auth` frame. -/
def ClientEvent.isAuth : ClientEvent → Bool
  | ClientEvent.auth _ => true
  | _ => false

/-- The raw JSON of an `auth{token}` frame. -/
def authRaw (tok : String) : Option Json :=
  some (Json.obj [("type", Json.str "auth"), ("token", Json.str tok)])

/-- The raw JSON of an `ack_read{chatId,messageId}` frame. -/
def ackReadRaw (c m : String) : Option Json :=
  some (Json.obj [("type", Json.str "ack_read"), ("chatId", Json.str c),
    ("messageId", Json.str m)])

/-- The raw JSON of an `ack_delivered{chatId,messageId}` frame. -/
def ackDeliveredRaw (c m : String) : Option Json :=
  some (Json.obj [("type", Json.str "ack_delivered"), ("chatId", Json.str c),
    ("messageId", Json.str m)])

/-- The raw JSON of an `ack_delivered_all{chatId}` frame. -/
def ackDeliveredAllRaw (c : String) : Option Json :=
  some (Json.obj [("type", Json.str "ack_delivered_all"), ("chatId", Json.str c)])

/-- The events written to this socket itself, in order. -/
def sendsOf (acts : List HubAction) : List ServerEvent :=
  acts.filterMap (fun a => match a with | HubAction.send e => some e | _ => none)

/-- Count of `presence_online{u}` broadcasts in an action list. -/
def countOnlineActs (u : String) (acts : List HubAction) : Nat :=
  acts.countP (fun a => decide (a = HubAction.broadcastAll (ServerEvent.presence_online u)))

/-- Count of `presence_offline{u}` broadcasts in an action list. -/
def countOfflineActs (u : String) (acts : List HubAction) : Nat :=
  acts.countP (fun a => decide (a = HubAction.broadcastAll (ServerEvent.presence_offline u)))

/-- Recognize a per-message delivered-ack broadcast for a given key. -/
def isSingleDeliveredPub (chatId messageId : String) (a : HubAction) : Bool :=
  match a with
  | HubAction.publish c (ServerEvent.message_delivered c2 m2 _) =>
    decide (c = chatId) && decide (c2 = chatId) && decide (m2 = messageId)
  | _ => false

/-- Recognize a per-message read-ack broadcast for a given key. -/
def isSingleReadPub (chatId messageId : String) (a : HubAction) : Bool :=
  match a with
  | HubAction.publish c (ServerEvent.message_read c2 m2 _ _) =>
    decide (c = chatId) && decide (c2 = chatId) && decide (m2 = messageId)
  | _ => false

/-- Recognize any delivered-ack broadcast (single or batched) covering a key. -/
def isDeliveredAckBroadcast (chatId messageId : String) (a : HubAction) : Bool :=
  match a with
  | HubAction.publish c (ServerEvent.message_delivered c2 m2 _) =>
    decide (c = chatId) && decide (c2 = chatId) && decide (m2 = messageId)
  | HubAction.publish c (ServerEvent.messages_delivered c2 ms _) =>
    decide (c = chatId) && decide (c2 = chatId) && ms.contains messageId
  | _ => false

/-- Recognize any delivered persistence write touching a message id. -/
def isDeliveredWriteFor (messageId : String) (a : HubAction) : Bool :=
  match a with
  | HubAction.dbWrite (DbWrite.addDelivered m _) => decide (m = messageId)
  | HubAction.dbWrite (DbWrite.addDeliveredMany ms _) => ms.contains messageId
  | _ => false

/-- Presence-relevant lifecycle events of one user's connections: a successful
auth (`setOnline`) or a connection teardown (`finalizeDisconnect`, i.e.
`setOffline`). -/
inductive PresEv where
  | connect (userId : String)
  | disconnect (userId : String)
deriving DecidableEq

/-- Apply one presence event to the presence counter. -/
def presStep (m : List (String × Int)) : PresEv → List (String × Int) × List HubAction
  | PresEv.connect u => setOnline m u
  | PresEv.disconnect u => setOffline m u

/-- Run a presence trace, accumulating broadcasts. -/
def presRun (m : List (String × Int)) : List PresEv → List (String × Int) × List HubAction
  | [] => (m, [])
  | e :: t =>
    let p := presStep m e
    let q := presRun p.1 t
    (q.1, p.2 ++ q.2)

/-- Number of `connect u` events in a trace. -/
def onl (u : String) (t : List PresEv) : Nat :=
  t.countP (fun e => decide (e = PresEv.connect u))

/-- Number of `disconnect u` events in a trace. -/
def ofl (u : String) (t : List PresEv) : Nat :=
  t.countP (fun e => decide (e = PresEv.disconnect u))

/-- The global two-directional subscription state: every socket (indexed by
its id) and the `chatSubs` map. -/
structure SubsState where
  socks : Nat → AliveSocket
  cs : ChatSubs

/-- Well-formedness of the subscription state: socket ids are correct, all
sets are duplicate-free, topic keys are non-empty, and the two index
directions agree. -/
def SubsInv (σ : SubsState) : Prop :=
  (∀ i : Nat, (σ.socks i).sid = i) ∧
  (∀ i : Nat, (σ.socks i).subs.Nodup) ∧
  (∀ c l, σ.cs c = some l → l ≠ [] ∧ l.Nodup) ∧
  (∀ (i : Nat) (c : String), c ∈ (σ.socks i).subs ↔ i ∈ ((σ.cs c).getD []))

/-- `subscribe` of socket `i`, lifted to the global state. -/
def subscribeAt (σ : SubsState) (i : Nat) (chatId : String) : SubsState :=
  let p := subscribe (σ.socks i) σ.cs chatId
  ⟨fun j => if j = i then p.1 else σ.socks j, p.2⟩

/-- `unsubscribe` of socket `i`, lifted to the global state. -/
def unsubscribeAt (σ : SubsState) (i : Nat) (chatId : String) : SubsState :=
  let p := unsubscribe (σ.socks i) σ.cs chatId
  ⟨fun j => if j = i then p.1 else σ.socks j, p.2⟩

/-- `cleanupSocket` of socket `i`, lifted to the global state. -/
def cleanupAt (σ : SubsState) (i : Nat) : SubsState :=
  let p := cleanupSocket (σ.socks i) σ.cs
  ⟨fun j => if j = i then p.1 else σ.socks j, p.2⟩

/-- The `foldl` at the heart of `cleanupSocket`. -/
def foldUnsub (q : AliveSocket × ChatSubs) (l : List String) : AliveSocket × ChatSubs :=
  l.foldl (fun q c => unsubscribe q.1 q.2 c) q

/-- Per-step dedup obligations of one `handleMessage` call with respect to
one dedup key (c, m): dedup sets only grow; at most one per-message ack
broadcast of each kind is emitted; none is emitted when the key is already
seen; and emitting one marks the key seen. -/
def StepOK (sock : AliveSocket) (res : WState × AliveSocket × List HubAction)
    (c m : String) : Prop :=
  (∀ k, k ∈ sock.delivered → k ∈ res.2.1.delivered) ∧
  (∀ k, k ∈ sock.read → k ∈ res.2.1.read) ∧
  res.2.2.countP (isSingleDeliveredPub c m) ≤ 1 ∧
  ((c ++ ":" ++ m) ∈ sock.delivered → res.2.2.countP (isSingleDeliveredPub c m) = 0) ∧
  (1 ≤ res.2.2.countP (isSingleDeliveredPub c m) → (c ++ ":" ++ m) ∈ res.2.1.delivered) ∧
  res.2.2.countP (isSingleReadPub c m) ≤ 1 ∧
  ((c ++ ":" ++ m) ∈ sock.read → res.2.2.countP (isSingleReadPub c m) = 0) ∧
  (1 ≤ res.2.2.countP (isSingleReadPub c m) → (c ++ ":" ++ m) ∈ res.2.1.read)

/-- Fixture: a JWT oracle accepting exactly `tok1` as user `u1`. -/
def verifyW : String → Except String String := fun t =>
  if t = "tok1" then Except.ok "u1" else Except.error "bad token"

/-- Fixture: a fresh, open, unauthenticated socket. -/
def sockW : AliveSocket := ⟨0, true, true, none, [], [], []⟩

/-- Fixture: an empty hub state. -/
def stW : WState := ⟨fun _ => none, [], fun _ => none, [], "T0"⟩

/-- Fixture: an open socket authenticated as `u1`, subscribed to `c1`. -/
def sockAck : AliveSocket := ⟨0, true, true, some "u1", ["c1"], [], []⟩

/-- Fixture: hub state where socket 0 subscribes `c1`, user `u1` has one
connection, and chat `c1` holds one message from `u2` with no acks yet. -/
def stAck : WState :=
  ⟨fun c => if c = "c1" then some [0] else none, [("u1", 1)], fun _ => none,
    [⟨"m1", "c1", "u2", [], []⟩], "T0"⟩

/-- Fixture: a syntactically valid Mongo ObjectId used as a chat id. -/
def cidJoin : String := "aaaaaaaaaaaaaaaaaaaaaaaa"

/-- Fixture: an open socket authenticated as `u1` with no subscriptions. -/
def sockJoin : AliveSocket := ⟨0, true, true, some "u1", [], [], []⟩

/-- Fixture: hub state where `u1` has one connection and is a member of chat
`cidJoin`. -/
def stJoin : WState :=
  ⟨fun _ => none, [("u1", 1)], fun c => if c = cidJoin then some ["u1"] else none, [], "T0"⟩

/-- Fixture: the hub after `sockJoin` disconnects (its close handler ran)
while its `join_chat` membership lookup was still awaited. -/
def disconnectedJoin : WState × AliveSocket × List HubAction :=
  finalizeDisconnect stJoin sockJoin

/-- Fixture: the disconnected socket object, no longer OPEN. -/
def sockJoinClosed : AliveSocket := { disconnectedJoin.2.1 with isOpen := false }

/-- Fixture: a presence trace of three overlapping connections of `u1`. -/
def tracePres : List PresEv :=
  [PresEv.connect "u1", PresEv.connect "u1", PresEv.disconnect "u1",
   PresEv.connect "u1", PresEv.disconnect "u1", PresEv.disconnect "u1"]

/-- Fixture: heartbeat sweep input, one unresponsive and one live socket. -/
def socksHb : List AliveSocket :=
  [⟨0, true, false, some "u1", [], [], []⟩, ⟨1, true, true, some "u2", [], [], []⟩]

/-- Fixture: hub state where user `u1` holds two concurrent authenticated
connections (presence count 2). -/
def stTwoConn : WState := ⟨fun _ => none, [("u1", 2)], fun _ => none, [], "T0"⟩

/-- Fixture: one of `u1`'s two connections, about to terminate via the
error path. -/
def sockErr : AliveSocket := ⟨0, true, true, some "u1", [], [], []⟩

/-- Fixture: the empty global subscription state. -/
def sigma0 : SubsState :=
  ⟨fun j => ⟨j, true, true, none, [], [], []⟩, fun _ => none⟩

/-! ## Helper lemmas about the set and map embeddings -/

theorem mem_setAdd {α : Type} [DecidableEq α] {l : List α} {x y : α} :
    y ∈ setAdd l x ↔ y ∈ l ∨ y = x := by
  by_cases h : x ∈ l
  · simp only [setAdd, if_pos h]
    constructor
    · exact Or.inl
    · rintro (hy | rfl)
      · exact hy
      · exact h
  · simp [setAdd, if_neg h]

theorem mem_setAdd_self {α : Type} [DecidableEq α] (l : List α) (x : α) :
    x ∈ setAdd l x := by
  rw [mem_setAdd]; exact Or.inr rfl

theorem mem_setAdd_of_mem {α : Type} [DecidableEq α] {l : List α} {x y : α}
    (h : y ∈ l) : y ∈ setAdd l x := by
  rw [mem_setAdd]; exact Or.inl h

theorem setAdd_nodup {α : Type} [DecidableEq α] {l : List α} (x : α)
    (h : l.Nodup) : (setAdd l x).Nodup := by
  by_cases hx : x ∈ l
  · simpa [setAdd, if_pos hx] using h
  · simp only [setAdd, if_neg hx]
    rw [List.nodup_append]
    refine ⟨h, List.nodup_singleton x, ?_⟩
    intro a ha hax
    rw [List.mem_singleton] at hax
    subst hax
    exact hx ha

theorem setAdd_ne_nil {α : Type} [DecidableEq α] (l : List α) (x : α) :
    setAdd l x ≠ [] := by
  intro h
  have := mem_setAdd_self l x
  rw [h] at this
  exact List.not_mem_nil x this

theorem mapGet_map_update (m : List (String × Int)) (k : String) (v : Int) :
    mapGet (m.map (fun p => if p.1 = k then (k, v) else p)) k
      = if m.any (fun p => decide (p.1 = k)) then some v else none := by
  induction m with
  | nil => rfl
  | cons a t ih =>
    by_cases ha : a.1 = k
    · simp only [List.map_cons, if_pos ha, List.any_cons, ha, decide_True, Bool.true_or,
        if_pos]
      unfold mapGet
      rw [List.find?_cons_of_pos]
      · rfl
      · simp
    · simp only [List.map_cons, if_neg ha, List.any_cons, ha, decide_False, Bool.false_or]
      unfold mapGet at ih ⊢
      rw [List.find?_cons_of_neg]
      · exact ih
      · simp [ha]

theorem mapGet_append_single (m : List (String × Int)) (k : String) (v : Int)
    (h : mapGet m k = none) : mapGet (m ++ [(k, v)]) k = some v := by
  unfold mapGet at h ⊢
  rw [List.find?_append]
  have hnone : m.find? (fun p => decide (p.1 = k)) = none := by
    cases hf : m.find? (fun p => decide (p.1 = k)) with
    | none => rfl
    | some a => rw [hf] at h; simp at h
  rw [hnone]
  simp [List.find?]

theorem any_eq_isSome_find (m : List (String × Int)) (k : String) :
    m.any (fun p => decide (p.1 = k)) = (mapGet m k).isSome := by
  induction m with
  | nil => rfl
  | cons a t ih =>
    by_cases ha : a.1 = k
    · simp only [List.any_cons, ha, decide_True, Bool.true_or]
      unfold mapGet
      rw [List.find?_cons_of_pos]
      · rfl
      · simp [ha]
    · simp only [List.any_cons, ha, decide_False, Bool.false_or]
      unfold mapGet at ih ⊢
      rw [List.find?_cons_of_neg]
      · exact ih
      · simp [ha]

theorem mapGet_mapSet_self (m : List (String × Int)) (k : String) (v : Int) :
    mapGet (mapSet m k v) k = some v := by
  unfold mapSet
  by_cases h : m.any (fun p => decide (p.1 = k))
  · rw [if_pos h, mapGet_map_update, if_pos h]
  · rw [if_neg h]
    apply mapGet_append_single
    rw [any_eq_isSome_find] at h
    cases hg : mapGet m k with
    | none => rfl
    | some x => rw [hg] at h; simp at h

/-! ## Reduction lemmas for concrete frame shapes -/

theorem parse_authRaw (tok : String) :
    parseClientEvent (authRaw tok) = some (ClientEvent.auth tok) := rfl

theorem parse_ackReadRaw (c m : String) :
    parseClientEvent (ackReadRaw c m) = some (ClientEvent.ack_read c m) := rfl

theorem parse_ackDeliveredRaw (c m : String) :
    parseClientEvent (ackDeliveredRaw c m) = some (ClientEvent.ack_delivered c m) := rfl

theorem parse_ackDeliveredAllRaw (c : String) :
    parseClientEvent (ackDeliveredAllRaw c) = some (ClientEvent.ack_delivered_all c) := rfl

theorem sendsOf_append (l1 l2 : List HubAction) :
    sendsOf (l1 ++ l2) = sendsOf l1 ++ sendsOf l2 :=
  List.filterMap_append l1 l2 _

theorem sendsOf_setOnline (m : List (String × Int)) (u : String) :
    sendsOf (setOnline m u).2 = [] := by
  unfold setOnline
  dsimp only
  split <;> rfl

/-! ## Claims -/

/-- Claim C8: every inbound frame that does not parse into one of the exact
client-event shapes (malformed JSON, non-object payload, unknown or mistyped
fields) is silently dropped: no reply, no state change, no termination,
regardless of the connection's authentication state. -/
theorem unmatched_frame_silently_dropped (verify : String → Except String String)
    (st : WState) (sock : AliveSocket) (raw : Option Json)
    (h : parseClientEvent raw = none) :
    handleMessage verify st sock raw = (st, sock, []) := by
  unfold handleMessage
  rw [h]

/-- Witness for C8 at concrete malformed inputs: a `JSON.parse` throw, a
non-object payload, an unknown type, and a mistyped field, on both an
unauthenticated and an authenticated connection. -/
theorem unmatched_frame_silently_dropped_witness :
    (parseClientEvent none = none ∧
      handleMessage verifyW stW sockW none = (stW, sockW, [])) ∧
    (parseClientEvent (some (Json.num 5)) = none ∧
      handleMessage verifyW stW sockW (some (Json.num 5)) = (stW, sockW, [])) ∧
    (parseClientEvent (some (Json.obj [("type", Json.str "jump")])) = none ∧
      handleMessage verifyW stW sockW (some (Json.obj [("type", Json.str "jump")]))
        = (stW, sockW, [])) ∧
    (parseClientEvent (some (Json.obj [("type", Json.str "auth"), ("token", Json.num 3)]))
        = none ∧
      handleMessage verifyW stAck sockAck
          (some (Json.obj [("type", Json.str "auth"), ("token", Json.num 3)]))
        = (stAck, sockAck, [])) :=
  ⟨⟨rfl, unmatched_frame_silently_dropped verifyW stW sockW none rfl⟩,
   ⟨rfl, unmatched_frame_silently_dropped verifyW stW sockW (some (Json.num 5)) rfl⟩,
   ⟨rfl, unmatched_frame_silently_dropped verifyW stW sockW
      (some (Json.obj [("type", Json.str "jump")])) rfl⟩,
   ⟨rfl, unmatched_frame_silently_dropped verifyW stAck sockAck
      (some (Json.obj [("type", Json.str "auth"), ("token", Json.num 3)])) rfl⟩⟩

/-- Claim C5: a well-formed non-`auth` frame on an unauthenticated (open)
connection leaves the entire hub state and the socket untouched — so no
frame but `auth` can mutate the subscription index, the presence counter or
the dedup sets before auth succeeds — and produces exactly an `auth_error`
reply followed by forced termination. -/
theorem preauth_nonauth_frame_rejected (verify : String → Except String String)
    (st : WState) (sock : AliveSocket) (raw : Option Json) (evt : ClientEvent)
    (hparse : parseClientEvent raw = some evt)
    (hna : evt.isAuth = false)
    (huid : sock.userId = none)
    (hopen : sock.isOpen = true) :
    handleMessage verify st sock raw =
      (st, sock, [HubAction.send (ServerEvent.auth_error "Authenticate first"),
        HubAction.terminate]) := by
  cases evt with
  | auth tk => simp [ClientEvent.isAuth] at hna
  | join_chat c =>
    unfold handleMessage
    rw [hparse]
    simp [huid, sendJson, hopen]
  | leave_chat c =>
    unfold handleMessage
    rw [hparse]
    simp [huid, sendJson, hopen]
  | ack_delivered c m =>
    unfold handleMessage
    rw [hparse]
    simp [huid, sendJson, hopen]
  | ack_read c m =>
    unfold handleMessage
    rw [hparse]
    simp [huid, sendJson, hopen]
  | ack_delivered_all c =>
    unfold handleMessage
    rw [hparse]
    simp [huid, sendJson, hopen]
  | ack_read_all c =>
    unfold handleMessage
    rw [hparse]
    simp [huid, sendJson, hopen]
  | typing_start c =>
    unfold handleMessage
    rw [hparse]
    simp [huid, sendJson, hopen]
  | typing_stop c =>
    unfold handleMessage
    rw [hparse]
    simp [huid, sendJson, hopen]

/-- Witness for C5: an `ack_read` frame on a fresh unauthenticated socket. -/
theorem preauth_nonauth_frame_rejected_witness :
    handleMessage verifyW stW sockW (ackReadRaw "c1" "m1") =
      (stW, sockW, [HubAction.send (ServerEvent.auth_error "Authenticate first"),
        HubAction.terminate]) :=
  preauth_nonauth_frame_rejected verifyW stW sockW (ackReadRaw "c1" "m1")
    (ClientEvent.ack_read "c1" "m1") rfl rfl rfl rfl

/-- Claim C3 (divergence exhibit): the `join_chat` handler does not re-check
connection liveness after its awaited membership lookup. `disconnectedJoin`
is the hub after the socket's close handler ran mid-await (its cleanup left
`cidJoin` without a key); resuming the handler's continuation
(`joinChatResume`, the code after `await Chat.findById`) on the now-closed
socket still inserts it into the subscription index. -/
theorem join_after_disconnect_subscribes_dead_socket :
    isValidObjectId cidJoin = true ∧
    sockJoinClosed.isOpen = false ∧
    disconnectedJoin.1.cs cidJoin = none ∧
    (joinChatResume disconnectedJoin.1 sockJoinClosed cidJoin
        (stJoin.chats cidJoin)).1.cs cidJoin = some [0] := by
  refine ⟨by decide, by decide, by decide, by decide⟩

/-- Claim C7 (counterexample): on a successful first auth the code sends the
presence snapshot BEFORE `auth_ok`, not after — the socket's send sequence
is `[presence_state, auth_ok]`, not `[auth_ok, presence_state]`. -/
theorem auth_ok_order_counterexample :
    sendsOf (handleMessage verifyW stW sockW (authRaw "tok1")).2.2
        = [ServerEvent.presence_state [], ServerEvent.auth_ok "u1"] ∧
    sendsOf (handleMessage verifyW stW sockW (authRaw "tok1")).2.2
        ≠ [ServerEvent.auth_ok "u1", ServerEvent.presence_state []] := by
  refine ⟨by decide, by decide⟩

/-- Claim C7 (amended): when an unauthenticated open connection authenticates
successfully, the server sends it the presence snapshot (`presence_state`,
computed from the counter before the increment) first and `auth_ok{userId}`
second. -/
theorem auth_sends_snapshot_then_ok (verify : String → Except String String)
    (st : WState) (sock : AliveSocket) (tok u : String)
    (huid : sock.userId = none) (hopen : sock.isOpen = true)
    (hv : verify tok = Except.ok u) :
    sendsOf (handleMessage verify st sock (authRaw tok)).2.2
      = [ServerEvent.presence_state (mapKeys st.userConnCount), ServerEvent.auth_ok u] := by
  unfold handleMessage
  rw [parse_authRaw]
  dsimp only
  rw [hv]
  simp [huid, sendsOf_append, sendsOf_setOnline, sendPresenceSnapshot, sendJson, hopen, sendsOf]
  intro a ha
  unfold setOnline at ha
  dsimp only at ha
  split at ha
  · simp only [List.mem_singleton] at ha
    subst ha
    rfl
  · simp at ha

/-- Witness for C7 (amended) at the concrete fixture. -/
theorem auth_sends_snapshot_then_ok_witness :
    sendsOf (handleMessage verifyW stW sockW (authRaw "tok1")).2.2
      = [ServerEvent.presence_state (mapKeys stW.userConnCount), ServerEvent.auth_ok "u1"] :=
  auth_sends_snapshot_then_ok verifyW stW sockW "tok1" "u1" rfl rfl rfl

/-- Claim C2 (counterexample): on one connection, `ack_delivered_all{c1}`
followed by `ack_delivered{c1,m1}` produces TWO delivered-ack broadcasts and
TWO persistence writes for the same dedup key (c1, m1): the "all" handler
dedups against store state instead of the per-connection dedup set, so the
following single ack is not suppressed. -/
theorem ack_dedup_mixed_counterexample :
    ((runFrames verifyW stAck sockAck [ackDeliveredAllRaw "c1", ackDeliveredRaw "c1" "m1"]).2.2.countP
        (isDeliveredAckBroadcast "c1" "m1") = 2) ∧
    ((runFrames verifyW stAck sockAck [ackDeliveredAllRaw "c1", ackDeliveredRaw "c1" "m1"]).2.2.countP
        (isDeliveredWriteFor "m1") = 2) := by
  refine ⟨by decide, by decide⟩

/-- Claim C6: two identical `ack_read{c,m}` frames on the same subscribed,
authenticated connection produce exactly one persistence write and one
`message_read` broadcast: the first frame yields precisely that write and
broadcast, and the second is dropped silently — no actions, no state
change. -/
theorem ack_read_idempotent (verify : String → Except String String)
    (st : WState) (sock : AliveSocket) (c m u : String)
    (huid : sock.userId = some u) (hopen : sock.isOpen = true)
    (hsub : c ∈ sock.subs) (hnew : (c ++ ":" ++ m) ∉ sock.read) :
    (handleMessage verify st sock (ackReadRaw c m)).2.2 =
        [HubAction.dbWrite (DbWrite.addRead m u),
         HubAction.publish c (ServerEvent.message_read c m u st.now)] ∧
    handleMessage verify (handleMessage verify st sock (ackReadRaw c m)).1
        (handleMessage verify st sock (ackReadRaw c m)).2.1 (ackReadRaw c m)
      = ((handleMessage verify st sock (ackReadRaw c m)).1,
         (handleMessage verify st sock (ackReadRaw c m)).2.1, []) := by
  have h1 : handleMessage verify st sock (ackReadRaw c m)
      = ({ st with db := dbAddRead st.db m u },
         { sock with read := setAdd sock.read (c ++ ":" ++ m) },
         [HubAction.dbWrite (DbWrite.addRead m u),
          HubAction.publish c (ServerEvent.message_read c m u st.now)]) := by
    unfold handleMessage
    rw [parse_ackReadRaw]
    dsimp only
    rw [huid]
    unfold handleAuthedEvent
    simp [hsub, hnew, huid]
  refine ⟨by rw [h1], ?_⟩
  rw [h1]
  unfold handleMessage
  rw [parse_ackReadRaw]
  dsimp only
  unfold handleAuthedEvent
  simp [hsub, mem_setAdd_self, huid]

/-- Witness for C6 at the concrete fixture. -/
theorem ack_read_idempotent_witness :
    (handleMessage verifyW stAck sockAck (ackReadRaw "c1" "m1")).2.2 =
        [HubAction.dbWrite (DbWrite.addRead "m1" "u1"),
         HubAction.publish "c1" (ServerEvent.message_read "c1" "m1" "u1" stAck.now)] ∧
    handleMessage verifyW (handleMessage verifyW stAck sockAck (ackReadRaw "c1" "m1")).1
        (handleMessage verifyW stAck sockAck (ackReadRaw "c1" "m1")).2.1 (ackReadRaw "c1" "m1")
      = ((handleMessage verifyW stAck sockAck (ackReadRaw "c1" "m1")).1,
         (handleMessage verifyW stAck sockAck (ackReadRaw "c1" "m1")).2.1, []) :=
  ack_read_idempotent verifyW stAck sockAck "c1" "m1" "u1" rfl rfl
    (by decide) (by decide)

/-- Claim C10: a second successful `auth` for the SAME user on an already
authenticated connection does not decrement the old binding (the decrement
branch requires different identities) and runs `setOnline` again: the user's
count rises to `c + 1` for one physical connection, no `presence_offline`
or any broadcast is emitted, and the eventual disconnect decrements only
once, leaving the count at `c` instead of `c - 1`. -/
theorem reauth_same_user_double_increment (verify : String → Except String String)
    (st : WState) (sock : AliveSocket) (tok u : String) (c : Int)
    (hv : verify tok = Except.ok u) (huid : sock.userId = some u)
    (hopen : sock.isOpen = true)
    (hc : mapGet st.userConnCount u = some c) (hc1 : 1 ≤ c) :
    (handleMessage verify st sock (authRaw tok)).2.2
        = [HubAction.send (ServerEvent.presence_state (mapKeys st.userConnCount)),
           HubAction.send (ServerEvent.auth_ok u)] ∧
    mapGet (handleMessage verify st sock (authRaw tok)).1.userConnCount u = some (c + 1) ∧
    (handleMessage verify st sock (authRaw tok)).2.1.userId = some u ∧
    mapGet (finalizeDisconnect (handleMessage verify st sock (authRaw tok)).1
        (handleMessage verify st sock (authRaw tok)).2.1).1.userConnCount u = some c ∧
    (finalizeDisconnect (handleMessage verify st sock (authRaw tok)).1
        (handleMessage verify st sock (authRaw tok)).2.1).2.2 = [] := by
  have h1 : handleMessage verify st sock (authRaw tok)
      = ({ st with userConnCount := mapSet st.userConnCount u (c + 1) },
         { sock with userId := some u },
         [HubAction.send (ServerEvent.presence_state (mapKeys st.userConnCount)),
          HubAction.send (ServerEvent.auth_ok u)]) := by
    unfold handleMessage
    rw [parse_authRaw]
    dsimp only
    rw [hv]
    dsimp only
    rw [huid]
    dsimp only
    rw [if_neg (by simp)]
    unfold setOnline sendPresenceSnapshot sendJson
    dsimp only
    rw [hc]
    simp only [Option.getD_some]
    rw [if_neg (by omega : ¬(c + 1 = (1 : Int)))]
    simp [hopen]
  rw [h1]
  dsimp only
  refine ⟨rfl, mapGet_mapSet_self _ _ _, rfl, ?_, ?_⟩
  · unfold finalizeDisconnect
    dsimp only
    unfold setOffline
    rw [mapGet_mapSet_self]
    simp only [Option.getD_some]
    rw [if_neg (by omega)]
    dsimp only
    have : c + 1 - 1 = c := by omega
    rw [this, mapGet_mapSet_self]
  · unfold finalizeDisconnect
    dsimp only
    unfold setOffline
    rw [mapGet_mapSet_self]
    simp only [Option.getD_some]
    rw [if_neg (by omega)]

/-- Witness for C10 at the concrete fixture (`u1` has one connection; the
socket re-authenticates as `u1`, then disconnects: the count ends at 1,
not 0, and no `presence_offline` fires). -/
theorem reauth_same_user_double_increment_witness :
    (handleMessage verifyW stAck sockAck (authRaw "tok1")).2.2
        = [HubAction.send (ServerEvent.presence_state (mapKeys stAck.userConnCount)),
           HubAction.send (ServerEvent.auth_ok "u1")] ∧
    mapGet (handleMessage verifyW stAck sockAck (authRaw "tok1")).1.userConnCount "u1"
        = some 2 ∧
    (handleMessage verifyW stAck sockAck (authRaw "tok1")).2.1.userId = some "u1" ∧
    mapGet (finalizeDisconnect (handleMessage verifyW stAck sockAck (authRaw "tok1")).1
        (handleMessage verifyW stAck sockAck (authRaw "tok1")).2.1).1.userConnCount "u1"
        = some 1 ∧
    (finalizeDisconnect (handleMessage verifyW stAck sockAck (authRaw "tok1")).1
        (handleMessage verifyW stAck sockAck (authRaw "tok1")).2.1).2.2 = [] :=
  reauth_same_user_double_increment verifyW stAck sockAck "tok1" "u1" 1
    rfl rfl rfl (by decide) (by decide)

/-! ## Presence trace lemmas (C1) -/

theorem mapGet_mapDelete_self (m : List (String × Int)) (k : String) :
    mapGet (mapDelete m k) k = none := by
  unfold mapGet mapDelete
  have : (m.filter (fun p => decide (p.1 ≠ k))).find? (fun p => decide (p.1 = k)) = none := by
    rw [List.find?_eq_none]
    intro x hx
    rw [List.mem_filter] at hx
    simpa using hx.2
  rw [this]
  rfl

theorem onl_cons_connect (u : String) (t : List PresEv) :
    onl u (PresEv.connect u :: t) = onl u t + 1 := by
  simp [onl, List.countP_cons]

theorem onl_cons_disconnect (u : String) (t : List PresEv) :
    onl u (PresEv.disconnect u :: t) = onl u t := by
  simp [onl, List.countP_cons]

theorem ofl_cons_connect (u : String) (t : List PresEv) :
    ofl u (PresEv.connect u :: t) = ofl u t := by
  simp [ofl, List.countP_cons]

theorem ofl_cons_disconnect (u : String) (t : List PresEv) :
    ofl u (PresEv.disconnect u :: t) = ofl u t + 1 := by
  simp [ofl, List.countP_cons]

theorem countOnlineActs_append (u : String) (l1 l2 : List HubAction) :
    countOnlineActs u (l1 ++ l2) = countOnlineActs u l1 + countOnlineActs u l2 := by
  simp [countOnlineActs, List.countP_append]

theorem countOfflineActs_append (u : String) (l1 l2 : List HubAction) :
    countOfflineActs u (l1 ++ l2) = countOfflineActs u l1 + countOfflineActs u l2 := by
  simp [countOfflineActs, List.countP_append]

theorem presRun_steady (u : String) : ∀ (t : List PresEv) (m : List (String × Int)) (c : Int),
    (∀ e ∈ t, e = PresEv.connect u ∨ e = PresEv.disconnect u) →
    mapGet m u = some c → 1 ≤ c →
    (∀ i, i < t.length → (ofl u (t.take i) : Int) < c + onl u (t.take i)) →
    countOnlineActs u (presRun m t).2 = 0 ∧
    countOfflineActs u (presRun m t).2
      = (if (ofl u t : Int) = c + onl u t then 1 else 0) := by
  intro t
  induction t with
  | nil =>
    intro m c hall hm hc hpre
    refine ⟨rfl, ?_⟩
    rw [if_neg]
    · rfl
    · simp only [onl, ofl, List.countP_nil, Nat.cast_zero]
      omega
  | cons e t ih =>
    intro m c hall hm hc hpre
    rcases hall e (List.mem_cons_self e t) with he | he
    · subst he
      have hstep : presStep m (PresEv.connect u) = (mapSet m u (c + 1), []) := by
        unfold presStep setOnline
        dsimp only
        rw [hm]
        simp only [Option.getD_some]
        rw [if_neg (by omega : ¬(c + 1 = (1 : Int)))]
      have hrun : presRun m (PresEv.connect u :: t)
          = ((presRun (mapSet m u (c + 1)) t).1, [] ++ (presRun (mapSet m u (c + 1)) t).2) := by
        simp only [presRun]
        rw [hstep]
      have hpre2 : ∀ i, i < t.length → (ofl u (t.take i) : Int) < (c + 1) + onl u (t.take i) := by
        intro i hi
        have := hpre (i + 1) (by simpa using Nat.succ_lt_succ hi)
        rw [List.take_succ_cons, ofl_cons_connect, onl_cons_connect] at this
        push_cast at this ⊢
        omega
      have hm2 : mapGet (mapSet m u (c + 1)) u = some (c + 1) := mapGet_mapSet_self m u (c + 1)
      obtain ⟨ih1, ih2⟩ := ih (mapSet m u (c + 1)) (c + 1)
        (fun x hx => hall x (List.mem_cons_of_mem _ hx)) hm2 (by omega) hpre2
      rw [hrun]
      dsimp only
      rw [List.nil_append]
      refine ⟨ih1, ?_⟩
      rw [ih2, ofl_cons_connect, onl_cons_connect]
      by_cases hcond : (ofl u t : Int) = (c + 1) + onl u t
      · rw [if_pos hcond, if_pos (by push_cast; omega)]
      · rw [if_neg hcond, if_neg (by push_cast; omega)]
    · subst he
      by_cases hone : c - 1 ≤ (0 : Int)
      · -- last connection of the user: the trace must end here
        have ht : t = [] := by
          by_contra htne
          have h1 := hpre 1 (by
            simp only [List.length_cons]
            exact Nat.succ_lt_succ (List.length_pos.mpr htne))
          rw [List.take_succ_cons, List.take_zero, ofl_cons_disconnect,
            onl_cons_disconnect] at h1
          simp only [onl, ofl, List.countP_nil] at h1
          push_cast at h1
          omega
        subst ht
        have hstep : presStep m (PresEv.disconnect u) = (mapDelete m u,
            [HubAction.broadcastAll (ServerEvent.presence_offline u),
             HubAction.dbWrite (DbWrite.setLastSeen u)]) := by
          unfold presStep setOffline
          dsimp only
          rw [hm]
          simp only [Option.getD_some]
          rw [if_pos hone]
        have hrun : presRun m [PresEv.disconnect u]
            = (mapDelete m u,
               [HubAction.broadcastAll (ServerEvent.presence_offline u),
                HubAction.dbWrite (DbWrite.setLastSeen u)] ++ []) := by
          simp only [presRun]
          rw [hstep]
        rw [hrun]
        dsimp only
        constructor
        · simp [countOnlineActs, List.countP_cons, List.countP_nil]
        · rw [if_pos]
          · simp [countOfflineActs, List.countP_cons, List.countP_nil]
          · rw [ofl_cons_disconnect, onl_cons_disconnect]
            simp only [onl, ofl, List.countP_nil]
            push_cast
            omega
      · -- user still has other live connections
        have hstep : presStep m (PresEv.disconnect u) = (mapSet m u (c - 1), []) := by
          unfold presStep setOffline
          dsimp only
          rw [hm]
          simp only [Option.getD_some]
          rw [if_neg hone]
        have hrun : presRun m (PresEv.disconnect u :: t)
            = ((presRun (mapSet m u (c - 1)) t).1, [] ++ (presRun (mapSet m u (c - 1)) t).2) := by
          simp only [presRun]
          rw [hstep]
        have hpre2 : ∀ i, i < t.length → (ofl u (t.take i) : Int) < (c - 1) + onl u (t.take i) := by
          intro i hi
          have := hpre (i + 1) (by simpa using Nat.succ_lt_succ hi)
          rw [List.take_succ_cons, ofl_cons_disconnect, onl_cons_disconnect] at this
          push_cast at this ⊢
          omega
        have hm2 : mapGet (mapSet m u (c - 1)) u = some (c - 1) := mapGet_mapSet_self m u (c - 1)
        obtain ⟨ih1, ih2⟩ := ih (mapSet m u (c - 1)) (c - 1)
          (fun x hx => hall x (List.mem_cons_of_mem _ hx)) hm2 (by omega) hpre2
        rw [hrun]
        dsimp only
        rw [List.nil_append]
        refine ⟨ih1, ?_⟩
        rw [ih2, ofl_cons_disconnect, onl_cons_disconnect]
        by_cases hcond : (ofl u t : Int) = (c - 1) + onl u t
        · rw [if_pos hcond, if_pos (by push_cast; omega)]
        · rw [if_neg hcond, if_neg (by push_cast; omega)]

/-- Presence counting is edge-triggered per invocation: over any trace of
one user's lifecycle events in which the N connections are concurrent (the
first event is a connect and the user's count stays positive strictly
inside the trace), each connection contributing exactly one `setOnline` and
one `setOffline` invocation, `presence_online` is broadcast exactly once
(at the first connect) and `presence_offline` exactly once (at the last
disconnect); `setOffline` decrements the count by exactly one, and one
`finalizeDisconnect` call of an authenticated socket applies `setOffline`
exactly once. NOTE: the code registers `finalizeDisconnect` on both the
close and the error event with no once-guard, so an error-triggered
termination invokes it twice — the per-termination-exactly-once premise of
this trace model fails on the error path (see the divergence theorem for
claim C1 below). -/
theorem presence_edge_events_once (u : String) (t : List PresEv)
    (hall : ∀ e ∈ t, e = PresEv.connect u ∨ e = PresEv.disconnect u)
    (hne : t ≠ [])
    (hbal : onl u t = ofl u t)
    (hconc : ∀ i, i < t.length → 0 < i → ofl u (t.take i) < onl u (t.take i)) :
    countOnlineActs u (presRun [] t).2 = 1 ∧
    countOfflineActs u (presRun [] t).2 = 1 ∧
    (∀ (m : List (String × Int)) (c : Int), mapGet m u = some c → 1 ≤ c →
       (mapGet (setOffline m u).1 u).getD 0 = c - 1) ∧
    (∀ (st : WState) (sock : AliveSocket) (v : String), sock.userId = some v →
       (finalizeDisconnect st sock).1.userConnCount = (setOffline st.userConnCount v).1) := by
  have hdec : ∀ (m : List (String × Int)) (c : Int), mapGet m u = some c → 1 ≤ c →
      (mapGet (setOffline m u).1 u).getD 0 = c - 1 := by
    intro m c hm hc
    unfold setOffline
    dsimp only
    rw [hm]
    simp only [Option.getD_some]
    by_cases h0 : c - 1 ≤ (0 : Int)
    · rw [if_pos h0]
      dsimp only
      rw [mapGet_mapDelete_self]
      simp only [Option.getD_none]
      omega
    · rw [if_neg h0]
      dsimp only
      rw [mapGet_mapSet_self]
      simp
  have hfin : ∀ (st : WState) (sock : AliveSocket) (v : String), sock.userId = some v →
      (finalizeDisconnect st sock).1.userConnCount = (setOffline st.userConnCount v).1 := by
    intro st sock v hv
    unfold finalizeDisconnect
    rw [hv]
  obtain ⟨e, t', rfl⟩ : ∃ e t', t = e :: t' := by
    cases t with
    | nil => exact absurd rfl hne
    | cons a b => exact ⟨a, b, rfl⟩
  have he : e = PresEv.connect u := by
    rcases hall e (List.mem_cons_self e t') with h | h
    · exact h
    · subst h
      cases t' with
      | nil =>
        rw [onl_cons_disconnect, ofl_cons_disconnect] at hbal
        simp [onl, ofl] at hbal
      | cons f t2 =>
        have h1 := hconc 1 (by simp) (by omega)
        rw [List.take_succ_cons, List.take_zero, ofl_cons_disconnect,
          onl_cons_disconnect] at h1
        simp [onl, ofl] at h1
  subst he
  have hstep : presStep [] (PresEv.connect u) = ([(u, 1)],
      [HubAction.broadcastAll (ServerEvent.presence_online u)]) := by
    unfold presStep setOnline
    dsimp only
    rfl
  have hrun : presRun [] (PresEv.connect u :: t')
      = ((presRun [(u, 1)] t').1,
         [HubAction.broadcastAll (ServerEvent.presence_online u)] ++ (presRun [(u, 1)] t').2) := by
    simp only [presRun]
    rw [hstep]
  have hm1 : mapGet [(u, 1)] u = some 1 := by
    unfold mapGet
    rw [List.find?_cons_of_pos _ (by simp)]
    rfl
  have hpre : ∀ i, i < t'.length → (ofl u (t'.take i) : Int) < 1 + onl u (t'.take i) := by
    intro i hi
    have h2 := hconc (i + 1) (by simpa using Nat.succ_lt_succ hi) (Nat.succ_pos i)
    rw [List.take_succ_cons, ofl_cons_connect, onl_cons_connect] at h2
    push_cast
    omega
  obtain ⟨h1, h2⟩ := presRun_steady u t' [(u, 1)] 1
    (fun x hx => hall x (List.mem_cons_of_mem _ hx)) hm1 le_rfl hpre
  rw [hrun]
  dsimp only
  rw [countOnlineActs_append, countOfflineActs_append, h1, h2]
  refine ⟨?_, ?_, hdec, hfin⟩
  · simp [countOnlineActs, List.countP_cons]
  · rw [if_pos ?hcond]
    case hcond =>
      rw [onl_cons_connect, ofl_cons_connect] at hbal
      push_cast
      omega
    simp [countOfflineActs, List.countP_cons]

/-- Concrete instance of the edge-triggered trace theorem: three
overlapping connections of `u1` in an interleaved order produce exactly one
`presence_online` and one `presence_offline`, and a decrement at count 2
lands at 1. -/
theorem presence_edge_events_once_witness :
    countOnlineActs "u1" (presRun [] tracePres).2 = 1 ∧
    countOfflineActs "u1" (presRun [] tracePres).2 = 1 ∧
    (mapGet (setOffline [("u1", 2)] "u1").1 "u1").getD 0 = 1 ∧
    (finalizeDisconnect stAck sockAck).1.userConnCount
      = (setOffline stAck.userConnCount "u1").1 := by
  have h := presence_edge_events_once "u1" tracePres (by decide) (by decide) (by decide)
    (by decide)
  exact ⟨h.1, h.2.1, h.2.2.1 [("u1", 2)] 2 (by decide) (by decide),
    h.2.2.2 stAck sockAck "u1" rfl⟩

/-! ## Per-step dedup lemmas (C2) -/

theorem countP_sendJson_sdp (s : AliveSocket) (e : ServerEvent) (c m : String) :
    (sendJson s e).countP (isSingleDeliveredPub c m) = 0 := by
  unfold sendJson
  split <;> rfl

theorem countP_sendJson_srp (s : AliveSocket) (e : ServerEvent) (c m : String) :
    (sendJson s e).countP (isSingleReadPub c m) = 0 := by
  unfold sendJson
  split <;> rfl

theorem countP_setOnline_sdp (mm : List (String × Int)) (u c m : String) :
    (setOnline mm u).2.countP (isSingleDeliveredPub c m) = 0 := by
  unfold setOnline
  dsimp only
  split <;> rfl

theorem countP_setOnline_srp (mm : List (String × Int)) (u c m : String) :
    (setOnline mm u).2.countP (isSingleReadPub c m) = 0 := by
  unfold setOnline
  dsimp only
  split <;> rfl

theorem countP_setOffline_sdp (mm : List (String × Int)) (u c m : String) :
    (setOffline mm u).2.countP (isSingleDeliveredPub c m) = 0 := by
  unfold setOffline
  dsimp only
  split <;> rfl

theorem countP_setOffline_srp (mm : List (String × Int)) (u c m : String) :
    (setOffline mm u).2.countP (isSingleReadPub c m) = 0 := by
  unfold setOffline
  dsimp only
  split <;> rfl

theorem stepOK_fields (sock : AliveSocket) (st2 : WState) (sock2 : AliveSocket)
    (acts : List HubAction) (c m : String)
    (hdel : sock2.delivered = sock.delivered) (hread : sock2.read = sock.read)
    (hd : acts.countP (isSingleDeliveredPub c m) = 0)
    (hr : acts.countP (isSingleReadPub c m) = 0) :
    StepOK sock (st2, sock2, acts) c m := by
  unfold StepOK
  dsimp only
  rw [hdel, hread, hd, hr]
  refine ⟨fun k h => h, fun k h => h, by omega, fun _ => rfl,
    fun h => absurd h (by omega), by omega, fun _ => rfl, fun h => absurd h (by omega)⟩

theorem unsubscribe_fst (sock : AliveSocket) (cs : ChatSubs) (chatId : String) :
    (unsubscribe sock cs chatId).1 = { sock with subs := sock.subs.erase chatId } := by
  unfold unsubscribe
  cases cs chatId with
  | none => rfl
  | some set0 =>
    dsimp only
    split <;> rfl

theorem subscribe_fst (sock : AliveSocket) (cs : ChatSubs) (chatId : String) :
    (subscribe sock cs chatId).1 = { sock with subs := setAdd sock.subs chatId } := rfl

theorem countP_srp_ackDelivered_acts (c2 m2 uid c m : String) :
    [HubAction.dbWrite (DbWrite.addDelivered m2 uid),
     HubAction.publish c2 (ServerEvent.message_delivered c2 m2 uid)].countP
      (isSingleReadPub c m) = 0 := rfl

theorem countP_sdp_ackRead_acts (c2 m2 uid rAt c m : String) :
    [HubAction.dbWrite (DbWrite.addRead m2 uid),
     HubAction.publish c2 (ServerEvent.message_read c2 m2 uid rAt)].countP
      (isSingleDeliveredPub c m) = 0 := rfl

theorem stepOK_grow (sock : AliveSocket) (st2 : WState) (sock2 : AliveSocket)
    (acts : List HubAction) (c m : String)
    (hdel : ∀ k, k ∈ sock.delivered → k ∈ sock2.delivered)
    (hread : ∀ k, k ∈ sock.read → k ∈ sock2.read)
    (hd : acts.countP (isSingleDeliveredPub c m) = 0)
    (hr : acts.countP (isSingleReadPub c m) = 0) :
    StepOK sock (st2, sock2, acts) c m := by
  unfold StepOK
  dsimp only
  rw [hd, hr]
  exact ⟨hdel, hread, by omega, fun _ => rfl, fun h => absurd h (by omega),
    by omega, fun _ => rfl, fun h => absurd h (by omega)⟩

theorem handleMessage_stepOK (verify : String → Except String String)
    (st : WState) (sock : AliveSocket) (raw : Option Json) (c m : String) :
    StepOK sock (handleMessage verify st sock raw) c m := by
  unfold handleMessage
  rcases hp : parseClientEvent raw with _ | evt
  · exact stepOK_grow sock st sock [] c m (fun k h => h) (fun k h => h) rfl rfl
  · cases evt with
    | auth tok =>
      dsimp only
      cases hv : verify tok with
      | error msg =>
        dsimp only
        refine stepOK_grow sock st sock _ c m (fun k h => h) (fun k h => h) ?_ ?_
        · rw [List.countP_append, countP_sendJson_sdp]
          rfl
        · rw [List.countP_append, countP_sendJson_srp]
          rfl
      | ok id =>
        dsimp only
        rcases huid : sock.userId with _ | old
        · dsimp only
          refine stepOK_grow sock _ _ _ c m (fun k h => h) (fun k h => h) ?_ ?_
          · rw [List.countP_append, List.countP_append, List.countP_append]
            unfold sendPresenceSnapshot
            rw [countP_sendJson_sdp, countP_setOnline_sdp, countP_sendJson_sdp]
            rfl
          · rw [List.countP_append, List.countP_append, List.countP_append]
            unfold sendPresenceSnapshot
            rw [countP_sendJson_srp, countP_setOnline_srp, countP_sendJson_srp]
            rfl
        · dsimp only
          by_cases hdiff : old ≠ id
          · rw [if_pos hdiff]
            refine stepOK_grow sock _ _ _ c m (fun k h => h) (fun k h => h) ?_ ?_
            · rw [List.countP_append, List.countP_append, List.countP_append]
              unfold sendPresenceSnapshot
              rw [countP_sendJson_sdp, countP_setOnline_sdp, countP_sendJson_sdp,
                countP_setOffline_sdp]
            · rw [List.countP_append, List.countP_append, List.countP_append]
              unfold sendPresenceSnapshot
              rw [countP_sendJson_srp, countP_setOnline_srp, countP_sendJson_srp,
                countP_setOffline_srp]
          · rw [if_neg hdiff]
            refine stepOK_grow sock _ _ _ c m (fun k h => h) (fun k h => h) ?_ ?_
            · rw [List.countP_append, List.countP_append, List.countP_append]
              unfold sendPresenceSnapshot
              rw [countP_sendJson_sdp, countP_setOnline_sdp, countP_sendJson_sdp]
              rfl
            · rw [List.countP_append, List.countP_append, List.countP_append]
              unfold sendPresenceSnapshot
              rw [countP_sendJson_srp, countP_setOnline_srp, countP_sendJson_srp]
              rfl
    | join_chat cid =>
      dsimp only
      rcases huid : sock.userId with _ | uid
      · dsimp only
        refine stepOK_grow sock st sock _ c m (fun k h => h) (fun k h => h) ?_ ?_
        · rw [List.countP_append, countP_sendJson_sdp]
          rfl
        · rw [List.countP_append, countP_sendJson_srp]
          rfl
      · dsimp only
        unfold handleAuthedEvent joinChatResume
        dsimp only
        split
        · split
          · exact stepOK_grow sock st sock _ c m (fun k h => h) (fun k h => h)
              (countP_sendJson_sdp _ _ _ _) (countP_sendJson_srp _ _ _ _)
          · split
            · exact stepOK_grow sock _ (subscribe sock st.cs cid).1 _ c m
                (fun k h => h) (fun k h => h)
                (countP_sendJson_sdp _ _ _ _) (countP_sendJson_srp _ _ _ _)
            · exact stepOK_grow sock st sock _ c m (fun k h => h) (fun k h => h)
                (countP_sendJson_sdp _ _ _ _) (countP_sendJson_srp _ _ _ _)
        · exact stepOK_grow sock st sock _ c m (fun k h => h) (fun k h => h)
            (countP_sendJson_sdp _ _ _ _) (countP_sendJson_srp _ _ _ _)
    | leave_chat cid =>
      dsimp only
      rcases huid : sock.userId with _ | uid
      · dsimp only
        refine stepOK_grow sock st sock _ c m (fun k h => h) (fun k h => h) ?_ ?_
        · rw [List.countP_append, countP_sendJson_sdp]
          rfl
        · rw [List.countP_append, countP_sendJson_srp]
          rfl
      · dsimp only
        unfold handleAuthedEvent
        dsimp only
        refine stepOK_grow sock _ (unsubscribe sock st.cs cid).1 _ c m ?_ ?_
            (countP_sendJson_sdp _ _ _ _) (countP_sendJson_srp _ _ _ _)
        · intro k h
          rw [unsubscribe_fst]
          exact h
        · intro k h
          rw [unsubscribe_fst]
          exact h
    | ack_delivered c2 m2 =>
      dsimp only
      rcases huid : sock.userId with _ | uid
      · dsimp only
        refine stepOK_grow sock st sock _ c m (fun k h => h) (fun k h => h) ?_ ?_
        · rw [List.countP_append, countP_sendJson_sdp]
          rfl
        · rw [List.countP_append, countP_sendJson_srp]
          rfl
      · dsimp only
        unfold handleAuthedEvent
        dsimp only
        by_cases hsub : c2 ∈ sock.subs
        · rw [if_pos hsub]
          by_cases hseen : (c2 ++ ":" ++ m2) ∈ sock.delivered
          · rw [if_pos hseen]
            exact stepOK_grow sock st sock [] c m (fun k h => h) (fun k h => h) rfl rfl
          · rw [if_neg hseen]
            by_cases hc : c2 = c
            · by_cases hm : m2 = m
              · subst hc
                subst hm
                unfold StepOK
                dsimp only
                have hcnt : [HubAction.dbWrite (DbWrite.addDelivered m2 uid),
                    HubAction.publish c2 (ServerEvent.message_delivered c2 m2 uid)].countP
                      (isSingleDeliveredPub c2 m2) = 1 := by
                  simp [isSingleDeliveredPub, List.countP_cons]
                rw [hcnt]
                refine ⟨fun k h => mem_setAdd_of_mem h, fun k h => h, le_refl 1,
                  fun h => absurd h hseen, fun _ => mem_setAdd_self _ _, ?_, fun _ => rfl,
                  fun h => absurd h (by rw [countP_srp_ackDelivered_acts]; omega)⟩
                rw [countP_srp_ackDelivered_acts]
                omega
              · refine stepOK_grow sock _ _ _ c m (fun k h => mem_setAdd_of_mem h)
                  (fun k h => h) ?_ ?_
                · simp [isSingleDeliveredPub, List.countP_cons, hm]
                · rfl
            · refine stepOK_grow sock _ _ _ c m (fun k h => mem_setAdd_of_mem h)
                (fun k h => h) ?_ ?_
              · simp [isSingleDeliveredPub, List.countP_cons, hc]
              · rfl
        · rw [if_neg hsub]
          exact stepOK_grow sock st sock [] c m (fun k h => h) (fun k h => h) rfl rfl
    | ack_read c2 m2 =>
      dsimp only
      rcases huid : sock.userId with _ | uid
      · dsimp only
        refine stepOK_grow sock st sock _ c m (fun k h => h) (fun k h => h) ?_ ?_
        · rw [List.countP_append, countP_sendJson_sdp]
          rfl
        · rw [List.countP_append, countP_sendJson_srp]
          rfl
      · dsimp only
        unfold handleAuthedEvent
        dsimp only
        by_cases hsub : c2 ∈ sock.subs
        · rw [if_pos hsub]
          by_cases hseen : (c2 ++ ":" ++ m2) ∈ sock.read
          · rw [if_pos hseen]
            exact stepOK_grow sock st sock [] c m (fun k h => h) (fun k h => h) rfl rfl
          · rw [if_neg hseen]
            by_cases hc : c2 = c
            · by_cases hm : m2 = m
              · subst hc
                subst hm
                unfold StepOK
                dsimp only
                have hcnt : [HubAction.dbWrite (DbWrite.addRead m2 uid),
                    HubAction.publish c2 (ServerEvent.message_read c2 m2 uid st.now)].countP
                      (isSingleReadPub c2 m2) = 1 := by
                  simp [isSingleReadPub, List.countP_cons]
                rw [hcnt]
                refine ⟨fun k h => h, fun k h => mem_setAdd_of_mem h, ?_, fun _ => rfl,
                  fun h => absurd h (by rw [countP_sdp_ackRead_acts]; omega), le_refl 1,
                  fun h => absurd h hseen, fun _ => mem_setAdd_self _ _⟩
                rw [countP_sdp_ackRead_acts]
                omega
              · refine stepOK_grow sock _ _ _ c m (fun k h => h)
                  (fun k h => mem_setAdd_of_mem h) ?_ ?_
                · rfl
                · simp [isSingleReadPub, List.countP_cons, hm]
            · refine stepOK_grow sock _ _ _ c m (fun k h => h)
                (fun k h => mem_setAdd_of_mem h) ?_ ?_
              · rfl
              · simp [isSingleReadPub, List.countP_cons, hc]
        · rw [if_neg hsub]
          exact stepOK_grow sock st sock [] c m (fun k h => h) (fun k h => h) rfl rfl
    | ack_delivered_all cid =>
      dsimp only
      rcases huid : sock.userId with _ | uid
      · dsimp only
        refine stepOK_grow sock st sock _ c m (fun k h => h) (fun k h => h) ?_ ?_
        · rw [List.countP_append, countP_sendJson_sdp]
          rfl
        · rw [List.countP_append, countP_sendJson_srp]
          rfl
      · dsimp only
        unfold handleAuthedEvent
        dsimp only
        split
        · split
          · exact stepOK_grow sock st sock [] c m (fun k h => h) (fun k h => h) rfl rfl
          · exact stepOK_grow sock _ sock _ c m (fun k h => h) (fun k h => h) rfl rfl
        · exact stepOK_grow sock st sock [] c m (fun k h => h) (fun k h => h) rfl rfl
    | ack_read_all cid =>
      dsimp only
      rcases huid : sock.userId with _ | uid
      · dsimp only
        refine stepOK_grow sock st sock _ c m (fun k h => h) (fun k h => h) ?_ ?_
        · rw [List.countP_append, countP_sendJson_sdp]
          rfl
        · rw [List.countP_append, countP_sendJson_srp]
          rfl
      · dsimp only
        unfold handleAuthedEvent
        dsimp only
        split
        · split
          · exact stepOK_grow sock st sock [] c m (fun k h => h) (fun k h => h) rfl rfl
          · exact stepOK_grow sock _ sock _ c m (fun k h => h) (fun k h => h) rfl rfl
        · exact stepOK_grow sock st sock [] c m (fun k h => h) (fun k h => h) rfl rfl
    | typing_start cid =>
      dsimp only
      rcases huid : sock.userId with _ | uid
      · dsimp only
        refine stepOK_grow sock st sock _ c m (fun k h => h) (fun k h => h) ?_ ?_
        · rw [List.countP_append, countP_sendJson_sdp]
          rfl
        · rw [List.countP_append, countP_sendJson_srp]
          rfl
      · dsimp only
        unfold handleAuthedEvent
        dsimp only
        split
        · exact stepOK_grow sock st sock _ c m (fun k h => h) (fun k h => h) rfl rfl
        · exact stepOK_grow sock st sock [] c m (fun k h => h) (fun k h => h) rfl rfl
    | typing_stop cid =>
      dsimp only
      rcases huid : sock.userId with _ | uid
      · dsimp only
        refine stepOK_grow sock st sock _ c m (fun k h => h) (fun k h => h) ?_ ?_
        · rw [List.countP_append, countP_sendJson_sdp]
          rfl
        · rw [List.countP_append, countP_sendJson_srp]
          rfl
      · dsimp only
        unfold handleAuthedEvent
        dsimp only
        split
        · exact stepOK_grow sock st sock _ c m (fun k h => h) (fun k h => h) rfl rfl
        · exact stepOK_grow sock st sock [] c m (fun k h => h) (fun k h => h) rfl rfl

theorem runFrames_single_ack (verify : String → Except String String) (c m : String) :
    ∀ (frames : List (Option Json)) (st : WState) (sock : AliveSocket),
    ((c ++ ":" ++ m) ∈ sock.delivered →
      (runFrames verify st sock frames).2.2.countP (isSingleDeliveredPub c m) = 0) ∧
    (runFrames verify st sock frames).2.2.countP (isSingleDeliveredPub c m) ≤ 1 ∧
    ((c ++ ":" ++ m) ∈ sock.read →
      (runFrames verify st sock frames).2.2.countP (isSingleReadPub c m) = 0) ∧
    (runFrames verify st sock frames).2.2.countP (isSingleReadPub c m) ≤ 1 := by
  intro frames
  induction frames with
  | nil =>
    intro st sock
    exact ⟨fun _ => rfl, Nat.zero_le 1, fun _ => rfl, Nat.zero_le 1⟩
  | cons r rest ih =>
    intro st sock
    obtain ⟨hmd, hmr, hd1, hd0, hdin, hr1, hr0, hrin⟩ := handleMessage_stepOK verify st sock r c m
    obtain ⟨ihd0, ihd1, ihr0, ihr1⟩ := ih (handleMessage verify st sock r).1
      (handleMessage verify st sock r).2.1
    simp only [runFrames]
    refine ⟨?_, ?_, ?_, ?_⟩
    · intro hk
      rw [List.countP_append, hd0 hk, ihd0 (hmd _ hk)]
    · rw [List.countP_append]
      by_cases hk : (c ++ ":" ++ m) ∈ sock.delivered
      · rw [hd0 hk, ihd0 (hmd _ hk)]
        omega
      · rcases Nat.eq_zero_or_pos
            ((handleMessage verify st sock r).2.2.countP (isSingleDeliveredPub c m)) with h0 | hpos
        · rw [h0]
          omega
        · rw [ihd0 (hdin hpos)]
          omega
    · intro hk
      rw [List.countP_append, hr0 hk, ihr0 (hmr _ hk)]
    · rw [List.countP_append]
      by_cases hk : (c ++ ":" ++ m) ∈ sock.read
      · rw [hr0 hk, ihr0 (hmr _ hk)]
        omega
      · rcases Nat.eq_zero_or_pos
            ((handleMessage verify st sock r).2.2.countP (isSingleReadPub c m)) with h0 | hpos
        · rw [h0]
          omega
        · rw [ihr0 (hrin hpos)]
          omega

/-- Claim C2 (amended): over a connection's whole lifetime (any frame
sequence), each dedup key (chat id, message id) yields at most one
per-message delivered-ack broadcast and at most one per-message read-ack
broadcast — the per-connection dedup sets guard all SINGLE acks of a kind.
The guarantee does not extend across "all" acks: those are deduplicated
against store state, and `ack_delivered_all` followed by `ack_delivered` for
the same key produces a second write and broadcast (see the
counterexample). -/
theorem single_ack_key_at_most_one_broadcast (verify : String → Except String String)
    (st : WState) (sock : AliveSocket) (frames : List (Option Json)) (c m : String) :
    (runFrames verify st sock frames).2.2.countP (isSingleDeliveredPub c m) ≤ 1 ∧
    (runFrames verify st sock frames).2.2.countP (isSingleReadPub c m) ≤ 1 :=
  ⟨(runFrames_single_ack verify c m frames st sock).2.1,
   (runFrames_single_ack verify c m frames st sock).2.2.2⟩

/-! ## Heartbeat sweep lemmas (C9) -/

theorem heartbeatSweep_survivors (socks : List AliveSocket) :
    (heartbeatSweep socks).1
      = (socks.filter (fun s => s.isAlive)).map (fun s => { s with isAlive := false }) := by
  induction socks with
  | nil => rfl
  | cons s rest ih =>
    simp only [heartbeatSweep]
    by_cases hs : s.isAlive = true
    · rw [if_pos hs]
      simp [List.filter_cons, hs, ih]
    · rw [if_neg hs]
      simp [List.filter_cons, hs, ih]

theorem heartbeatSweep_mem_sid (socks : List AliveSocket) :
    ∀ sid a, (sid, a) ∈ (heartbeatSweep socks).2 → sid ∈ socks.map (fun s => s.sid) := by
  induction socks with
  | nil =>
    intro sid a h
    simp [heartbeatSweep] at h
  | cons s rest ih =>
    intro sid a h
    simp only [heartbeatSweep] at h
    by_cases hs : s.isAlive = true
    · rw [if_pos hs] at h
      rcases List.mem_cons.mp h with heq | hmem
      · rw [List.map_cons, List.mem_cons]
        exact Or.inl (congrArg Prod.fst heq)
      · exact List.mem_cons_of_mem _ (ih sid a hmem)
    · rw [if_neg hs] at h
      rcases List.mem_cons.mp h with heq | hmem
      · rw [List.map_cons, List.mem_cons]
        exact Or.inl (congrArg Prod.fst heq)
      · exact List.mem_cons_of_mem _ (ih sid a hmem)

theorem heartbeatSweep_terminate_iff (socks : List AliveSocket)
    (hnd : (socks.map (fun s => s.sid)).Nodup) :
    ∀ s ∈ socks, ((s.sid, HubAction.terminate) ∈ (heartbeatSweep socks).2
      ↔ s.isAlive = false) := by
  induction socks with
  | nil =>
    intro s hs
    exact absurd hs (List.not_mem_nil s)
  | cons s0 rest ih =>
    rw [List.map_cons, List.nodup_cons] at hnd
    intro s hs
    simp only [heartbeatSweep]
    rcases List.mem_cons.mp hs with rfl | hmem
    · by_cases h0 : s.isAlive = true
      · rw [if_pos h0]
        constructor
        · intro h
          rcases List.mem_cons.mp h with heq | hmem2
          · exact absurd (congrArg Prod.snd heq) (by simp)
          · exact absurd (heartbeatSweep_mem_sid rest _ _ hmem2) hnd.1
        · intro h
          rw [h0] at h
          exact absurd h (by simp)
      · rw [if_neg h0]
        simp only [Bool.not_eq_true] at h0
        simp [h0]
    · by_cases h0 : s0.isAlive = true
      · rw [if_pos h0]
        rw [List.mem_cons]
        constructor
        · intro h
          rcases h with heq | hmem2
          · exact absurd (congrArg Prod.snd heq) (by simp)
          · exact (ih hnd.2 s hmem).mp hmem2
        · intro h
          exact Or.inr ((ih hnd.2 s hmem).mpr h)
      · rw [if_neg h0]
        rw [List.mem_cons]
        constructor
        · intro h
          rcases h with heq | hmem2
          · refine absurd (congrArg Prod.fst heq) (fun hsid => hnd.1 ?_)
            have h2 : s.sid = s0.sid := hsid
            exact h2 ▸ List.mem_map_of_mem (fun x => x.sid) hmem
          · exact (ih hnd.2 s hmem).mp hmem2
        · intro h
          exact Or.inr ((ih hnd.2 s hmem).mpr h)

theorem heartbeatSweep_ping_iff (socks : List AliveSocket)
    (hnd : (socks.map (fun s => s.sid)).Nodup) :
    ∀ s ∈ socks, ((s.sid, HubAction.ping) ∈ (heartbeatSweep socks).2
      ↔ s.isAlive = true) := by
  induction socks with
  | nil =>
    intro s hs
    exact absurd hs (List.not_mem_nil s)
  | cons s0 rest ih =>
    rw [List.map_cons, List.nodup_cons] at hnd
    intro s hs
    simp only [heartbeatSweep]
    rcases List.mem_cons.mp hs with rfl | hmem
    · by_cases h0 : s.isAlive = true
      · rw [if_pos h0]
        simp [h0]
      · rw [if_neg h0]
        constructor
        · intro h
          rcases List.mem_cons.mp h with heq | hmem2
          · exact absurd (congrArg Prod.snd heq) (by simp)
          · exact absurd (heartbeatSweep_mem_sid rest _ _ hmem2) hnd.1
        · intro h
          exact absurd h h0
    · by_cases h0 : s0.isAlive = true
      · rw [if_pos h0]
        rw [List.mem_cons]
        constructor
        · intro h
          rcases h with heq | hmem2
          · refine absurd (congrArg Prod.fst heq) (fun hsid => hnd.1 ?_)
            have h2 : s.sid = s0.sid := hsid
            exact h2 ▸ List.mem_map_of_mem (fun x => x.sid) hmem
          · exact (ih hnd.2 s hmem).mp hmem2
        · intro h
          exact Or.inr ((ih hnd.2 s hmem).mpr h)
      · rw [if_neg h0]
        rw [List.mem_cons]
        constructor
        · intro h
          rcases h with heq | hmem2
          · exact absurd (congrArg Prod.snd heq) (by simp)
          · exact (ih hnd.2 s hmem).mp hmem2
        · intro h
          exact Or.inr ((ih hnd.2 s hmem).mpr h)

/-- Claim C9: on a heartbeat sweep (over sockets with distinct ids), a
connection is terminated iff its liveness flag is still false from the prior
sweep; every survivor is exactly a live socket with its flag cleared to
false and receives a ping; a pong sets the flag true; and when the
terminated connection was its user's last one, its close-handler
(`finalizeDisconnect`) broadcasts `presence_offline` for that user (and
persists last-seen). -/
theorem heartbeat_sweep_behaviour (socks : List AliveSocket)
    (hnd : (socks.map (fun s => s.sid)).Nodup) :
    (∀ s ∈ socks, ((s.sid, HubAction.terminate) ∈ (heartbeatSweep socks).2
      ↔ s.isAlive = false)) ∧
    (heartbeatSweep socks).1
      = (socks.filter (fun s => s.isAlive)).map (fun s => { s with isAlive := false }) ∧
    (∀ s ∈ socks, ((s.sid, HubAction.ping) ∈ (heartbeatSweep socks).2
      ↔ s.isAlive = true)) ∧
    (∀ s : AliveSocket, (onPong s).isAlive = true) ∧
    (∀ (st : WState) (sock : AliveSocket) (u : String), sock.userId = some u →
      mapGet st.userConnCount u = some 1 →
      (finalizeDisconnect st sock).2.2
        = [HubAction.broadcastAll (ServerEvent.presence_offline u),
           HubAction.dbWrite (DbWrite.setLastSeen u)]) := by
  refine ⟨heartbeatSweep_terminate_iff socks hnd, heartbeatSweep_survivors socks,
    heartbeatSweep_ping_iff socks hnd, fun s => rfl, ?_⟩
  intro st sock u huid hcnt
  unfold finalizeDisconnect
  rw [huid]
  dsimp only
  unfold setOffline
  rw [hcnt]
  simp only [Option.getD_some]
  rw [if_pos (by omega : (1 : Int) - 1 ≤ 0)]

/-- Witness for C9: a sweep over one unresponsive and one live socket
terminates exactly the first, clears and pings the second, and the
unresponsive socket's disconnect (its user's last connection) broadcasts
`presence_offline`. -/
theorem heartbeat_sweep_behaviour_witness :
    ((0, HubAction.terminate) ∈ (heartbeatSweep socksHb).2 ↔
      (⟨0, true, false, some "u1", [], [], []⟩ : AliveSocket).isAlive = false) ∧
    (heartbeatSweep socksHb).1
      = (socksHb.filter (fun s => s.isAlive)).map (fun s => { s with isAlive := false }) ∧
    ((1, HubAction.ping) ∈ (heartbeatSweep socksHb).2 ↔
      (⟨1, true, true, some "u2", [], [], []⟩ : AliveSocket).isAlive = true) ∧
    (onPong ⟨0, true, false, some "u1", [], [], []⟩).isAlive = true ∧
    (finalizeDisconnect stAck ⟨0, true, false, some "u1", [], [], []⟩).2.2
      = [HubAction.broadcastAll (ServerEvent.presence_offline "u1"),
         HubAction.dbWrite (DbWrite.setLastSeen "u1")] := by
  have h := heartbeat_sweep_behaviour socksHb (by decide)
  exact ⟨h.1 ⟨0, true, false, some "u1", [], [], []⟩ (by decide),
    h.2.1,
    h.2.2.1 ⟨1, true, true, some "u2", [], [], []⟩ (by decide),
    h.2.2.2.1 _,
    h.2.2.2.2 stAck ⟨0, true, false, some "u1", [], [], []⟩ "u1" rfl (by decide)⟩

/-! ## Subscription index invariants (C4) -/

theorem subsInv_congr (sigma sigma2 : SubsState) (h : SubsInv sigma)
    (hs : ∀ j, sigma2.socks j = sigma.socks j) (hc : ∀ x, sigma2.cs x = sigma.cs x) :
    SubsInv sigma2 := by
  obtain ⟨s2, c2⟩ := sigma2
  have h1 : s2 = sigma.socks := funext hs
  have h2 : c2 = sigma.cs := funext hc
  subst h1
  subst h2
  exact h

theorem subsInv_subscribeAt (sigma : SubsState) (i : Nat) (c : String)
    (h : SubsInv sigma) : SubsInv (subscribeAt sigma i c) := by
  obtain ⟨hsid, hnd, hcs, hsym⟩ := h
  unfold subscribeAt subscribe SubsInv
  refine ⟨?_, ?_, ?_, ?_⟩
  all_goals try dsimp only
  · intro j
    by_cases hj : j = i
    · rw [if_pos hj, hj]
      exact hsid i
    · rw [if_neg hj]
      exact hsid j
  · intro j
    by_cases hj : j = i
    · rw [if_pos hj]
      exact setAdd_nodup _ (hnd i)
    · rw [if_neg hj]
      exact hnd j
  · intro c2 l hl
    by_cases hc2 : c2 = c
    · rw [if_pos hc2] at hl
      obtain rfl : setAdd ((sigma.cs c).getD []) (sigma.socks i).sid = l :=
        Option.some.inj hl
      refine ⟨setAdd_ne_nil _ _, setAdd_nodup _ ?_⟩
      cases hcs0 : sigma.cs c with
      | none => simp [hcs0]
      | some l0 => exact (hcs c l0 hcs0).2
    · rw [if_neg hc2] at hl
      exact hcs c2 l hl
  · intro j c2
    by_cases hj : j = i
    · subst hj
      by_cases hc2 : c2 = c
      · subst hc2
        rw [if_pos rfl, if_pos rfl]
        constructor
        · intro _
          simp only [Option.getD_some]
          rw [hsid j]
          exact mem_setAdd_self _ _
        · intro _
          exact mem_setAdd_self _ _
      · rw [if_pos rfl, if_neg hc2]
        rw [mem_setAdd]
        constructor
        · rintro (hin | rfl)
          · exact (hsym j c2).mp hin
          · exact absurd rfl hc2
        · intro hin
          exact Or.inl ((hsym j c2).mpr hin)
    · by_cases hc2 : c2 = c
      · subst hc2
        rw [if_neg hj, if_pos rfl]
        simp only [Option.getD_some]
        rw [hsid i, mem_setAdd]
        constructor
        · intro hin
          exact Or.inl ((hsym j c2).mp hin)
        · rintro (hin | rfl)
          · exact (hsym j c2).mpr hin
          · exact absurd rfl hj
      · rw [if_neg hj, if_neg hc2]
        exact hsym j c2

theorem subsInv_unsubscribeAt (sigma : SubsState) (i : Nat) (c : String)
    (h : SubsInv sigma) : SubsInv (unsubscribeAt sigma i c) := by
  obtain ⟨hsid, hnd, hcs, hsym⟩ := h
  unfold unsubscribeAt unsubscribe SubsInv
  cases hcs0 : sigma.cs c with
  | none =>
    refine ⟨?_, ?_, ?_, ?_⟩
    all_goals try dsimp only
    · intro j
      by_cases hj : j = i
      · rw [if_pos hj, hj]
        exact hsid i
      · rw [if_neg hj]
        exact hsid j
    · intro j
      by_cases hj : j = i
      · rw [if_pos hj]
        exact (hnd i).erase c
      · rw [if_neg hj]
        exact hnd j
    · exact hcs
    · intro j c2
      by_cases hj : j = i
      · subst hj
        rw [if_pos rfl]
        by_cases hc2 : c2 = c
        · subst hc2
          constructor
          · intro hin
            exact absurd ((List.Nodup.mem_erase_iff (hnd j)).mp hin).1 (by simp)
          · intro hin
            rw [hcs0] at hin
            simp at hin
        · rw [List.mem_erase_of_ne hc2]
          exact hsym j c2
      · rw [if_neg hj]
        exact hsym j c2
  | some set0 =>
    rw [hsid i]
    dsimp only
    by_cases hemp : (set0.erase i).isEmpty = true
    · rw [if_pos hemp]
      have hsub : set0.erase i = [] := by
        cases hx : set0.erase i with
        | nil => rfl
        | cons a b => rw [hx] at hemp; simp at hemp
      refine ⟨?_, ?_, ?_, ?_⟩
      all_goals try dsimp only
      · intro j
        by_cases hj : j = i
        · rw [if_pos hj, hj]
        · rw [if_neg hj]
          exact hsid j
      · intro j
        by_cases hj : j = i
        · rw [if_pos hj]
          exact (hnd i).erase c
        · rw [if_neg hj]
          exact hnd j
      · intro c2 l hl
        by_cases hc2 : c2 = c
        · rw [if_pos hc2] at hl
          exact absurd hl (by simp)
        · rw [if_neg hc2] at hl
          exact hcs c2 l hl
      · intro j c2
        by_cases hj : j = i
        · subst hj
          rw [if_pos rfl]
          by_cases hc2 : c2 = c
          · subst hc2
            rw [if_pos rfl]
            constructor
            · intro hin
              exact absurd ((List.Nodup.mem_erase_iff (hnd j)).mp hin).1 (by simp)
            · intro hin
              simp at hin
          · rw [if_neg hc2, List.mem_erase_of_ne hc2]
            exact hsym j c2
        · rw [if_neg hj]
          by_cases hc2 : c2 = c
          · subst hc2
            rw [if_pos rfl]
            constructor
            · intro hin
              have h2 := (hsym j c2).mp hin
              rw [hcs0] at h2
              simp only [Option.getD_some] at h2
              have h3 : j ∈ set0.erase i := (List.mem_erase_of_ne hj).mpr h2
              rw [hsub] at h3
              exact absurd h3 (List.not_mem_nil j)
            · intro hin
              simp at hin
          · rw [if_neg hc2]
            exact hsym j c2
    · rw [if_neg hemp]
      have hne2 : set0.erase i ≠ [] := by
        intro hh
        rw [hh] at hemp
        exact hemp rfl
      refine ⟨?_, ?_, ?_, ?_⟩
      all_goals try dsimp only
      · intro j
        by_cases hj : j = i
        · rw [if_pos hj, hj]
        · rw [if_neg hj]
          exact hsid j
      · intro j
        by_cases hj : j = i
        · rw [if_pos hj]
          exact (hnd i).erase c
        · rw [if_neg hj]
          exact hnd j
      · intro c2 l hl
        by_cases hc2 : c2 = c
        · rw [if_pos hc2] at hl
          have hli : set0.erase i = l := Option.some.inj hl
          rw [← hli]
          exact ⟨hne2, (hcs c set0 hcs0).2.erase i⟩
        · rw [if_neg hc2] at hl
          exact hcs c2 l hl
      · intro j c2
        by_cases hj : j = i
        · subst hj
          rw [if_pos rfl]
          by_cases hc2 : c2 = c
          · subst hc2
            rw [if_pos rfl]
            simp only [Option.getD_some]
            constructor
            · intro hin
              exact absurd ((List.Nodup.mem_erase_iff (hnd j)).mp hin).1 (by simp)
            · intro hin
              exact absurd ((List.Nodup.mem_erase_iff ((hcs c2 set0 hcs0).2)).mp hin).1
                (by simp)
          · rw [if_neg hc2, List.mem_erase_of_ne hc2]
            exact hsym j c2
        · rw [if_neg hj]
          by_cases hc2 : c2 = c
          · subst hc2
            rw [if_pos rfl]
            simp only [Option.getD_some]
            rw [List.mem_erase_of_ne hj]
            have h2 := hsym j c2
            rw [hcs0] at h2
            simpa using h2
          · rw [if_neg hc2]
            exact hsym j c2

theorem foldUnsub_clears : ∀ (L : List String) (s : AliveSocket) (cs : ChatSubs),
    s.subs = L → L.Nodup → (foldUnsub (s, cs) L).1.subs = [] := by
  intro L
  induction L with
  | nil =>
    intro s cs hs _
    exact hs
  | cons c0 L ih =>
    intro s cs hs hnd
    rw [List.nodup_cons] at hnd
    have h1 : (unsubscribe s cs c0).1.subs = L := by
      rw [unsubscribe_fst]
      dsimp only
      rw [hs, List.erase_cons_head]
    have h2 := ih (unsubscribe s cs c0).1 (unsubscribe s cs c0).2 h1 hnd.2
    rw [Prod.mk.eta] at h2
    exact h2

theorem foldUnsub_global (i : Nat) : ∀ (L : List String) (sigma : SubsState),
    SubsInv sigma →
    SubsInv ⟨fun j => if j = i then (foldUnsub (sigma.socks i, sigma.cs) L).1
        else sigma.socks j,
      (foldUnsub (sigma.socks i, sigma.cs) L).2⟩ := by
  intro L
  induction L with
  | nil =>
    intro sigma h
    refine subsInv_congr sigma _ h ?_ ?_
    · intro j
      dsimp only [foldUnsub, List.foldl]
      by_cases hj : j = i
      · rw [if_pos hj, hj]
      · rw [if_neg hj]
    · intro x
      rfl
  | cons c0 L ih =>
    intro sigma h
    have h1 := subsInv_unsubscribeAt sigma i c0 h
    have ih1 := ih (unsubscribeAt sigma i c0) h1
    have hpair : ((unsubscribeAt sigma i c0).socks i, (unsubscribeAt sigma i c0).cs)
        = unsubscribe (sigma.socks i) sigma.cs c0 := by
      unfold unsubscribeAt
      dsimp only
      rw [if_pos rfl, Prod.mk.eta]
    rw [hpair] at ih1
    have hfold : foldUnsub (sigma.socks i, sigma.cs) (c0 :: L)
        = foldUnsub (unsubscribe (sigma.socks i) sigma.cs c0) L := rfl
    rw [hfold]
    refine subsInv_congr _ _ ih1 ?_ ?_
    · intro j
      dsimp only
      by_cases hj : j = i
      · rw [if_pos hj, if_pos hj]
      · rw [if_neg hj, if_neg hj]
        unfold unsubscribeAt
        dsimp only
        rw [if_neg hj]
    · intro x
      rfl

theorem subsInv_cleanupAt (sigma : SubsState) (i : Nat) (h : SubsInv sigma) :
    SubsInv (cleanupAt sigma i) := by
  have hg := foldUnsub_global i (sigma.socks i).subs sigma h
  have hclear : (foldUnsub (sigma.socks i, sigma.cs) (sigma.socks i).subs).1.subs = [] :=
    foldUnsub_clears (sigma.socks i).subs (sigma.socks i) sigma.cs rfl (h.2.1 i)
  obtain ⟨gsid, gnd, gcs, gsym⟩ := hg
  dsimp only at gsid gnd gcs gsym
  unfold cleanupAt cleanupSocket SubsInv
  refine ⟨?_, ?_, ?_, ?_⟩
  all_goals try dsimp only
  · intro j
    by_cases hj : j = i
    · rw [if_pos hj, hj]
      have h2 := gsid i
      rw [if_pos rfl] at h2
      exact h2
    · rw [if_neg hj]
      exact h.1 j
  · intro j
    by_cases hj : j = i
    · rw [if_pos hj]
      exact List.nodup_nil
    · rw [if_neg hj]
      exact h.2.1 j
  · exact gcs
  · intro j c2
    by_cases hj : j = i
    · rw [if_pos hj]
      constructor
      · intro hin
        exact absurd hin (List.not_mem_nil c2)
      · intro hin
        have h2 := gsym i c2
        rw [if_pos rfl] at h2
        rw [hj] at hin
        have h3 := h2.mpr hin
        rw [hclear] at h3
        exact absurd h3 (List.not_mem_nil c2)
    · rw [if_neg hj]
      have h2 := gsym j c2
      rw [if_neg hj] at h2
      exact h2

theorem subsKey_iff (sigma : SubsState) (h : SubsInv sigma) (c : String) :
    (sigma.cs c).isSome ↔ ∃ j, c ∈ (sigma.socks j).subs := by
  obtain ⟨hsid, hnd, hcs, hsym⟩ := h
  constructor
  · intro hks
    cases hcs0 : sigma.cs c with
    | none =>
      rw [hcs0] at hks
      simp at hks
    | some l =>
      obtain ⟨hne, _⟩ := hcs c l hcs0
      obtain ⟨j, hj⟩ := List.exists_mem_of_ne_nil l hne
      refine ⟨j, (hsym j c).mpr ?_⟩
      rw [hcs0]
      exact hj
  · rintro ⟨j, hj⟩
    have h2 := (hsym j c).mp hj
    cases hcs0 : sigma.cs c with
    | none =>
      rw [hcs0] at h2
      exact absurd h2 (List.not_mem_nil j)
    | some l => simp [hcs0]

/-- Claim C4: from any well-formed state, a `subscribe(conn, chatId)` leaves
chatId in the socket's subscription set and the socket in the topic's set;
`subscribe`, `unsubscribe` and connection cleanup each preserve the mutual
consistency of the two index directions (plus id correctness, set
duplicate-freedom and key non-emptiness); and a chat id is a key of the
subscription index exactly while at least one connection is subscribed to
it. -/
theorem subscription_index_invariants (sigma : SubsState) (i : Nat) (c : String)
    (h : SubsInv sigma) :
    SubsInv (subscribeAt sigma i c) ∧
    c ∈ ((subscribeAt sigma i c).socks i).subs ∧
    i ∈ (((subscribeAt sigma i c).cs c).getD []) ∧
    SubsInv (unsubscribeAt sigma i c) ∧
    SubsInv (cleanupAt sigma i) ∧
    ((sigma.cs c).isSome ↔ ∃ j, c ∈ (sigma.socks j).subs) := by
  refine ⟨subsInv_subscribeAt sigma i c h, ?_, ?_, subsInv_unsubscribeAt sigma i c h,
    subsInv_cleanupAt sigma i h, subsKey_iff sigma h c⟩
  · unfold subscribeAt
    dsimp only
    rw [if_pos rfl, subscribe_fst]
    exact mem_setAdd_self _ _
  · unfold subscribeAt subscribe
    dsimp only
    rw [if_pos rfl]
    simp only [Option.getD_some]
    rw [h.1 i]
    exact mem_setAdd_self _ _

/-- Witness for C4 at the empty global state (socket 0, chat `c1`). -/
theorem subscription_index_invariants_witness :
    SubsInv (subscribeAt sigma0 0 "c1") ∧
    "c1" ∈ ((subscribeAt sigma0 0 "c1").socks 0).subs ∧
    0 ∈ (((subscribeAt sigma0 0 "c1").cs "c1").getD []) ∧
    SubsInv (unsubscribeAt sigma0 0 "c1") ∧
    SubsInv (cleanupAt sigma0 0) ∧
    ((sigma0.cs "c1").isSome ↔ ∃ j, "c1" ∈ (sigma0.socks j).subs) :=
  subscription_index_invariants sigma0 0 "c1"
    ⟨fun i => rfl, fun i => List.nodup_nil,
     fun c l hl => Option.noConfusion hl,
     fun i c => Iff.of_eq (by simp [sigma0])⟩

/-- Claim C1 (divergence exhibit): `finalizeDisconnect` is registered as
both the close handler and the error handler (lines 399-400) with no
once-guard, and it never clears `socket.userId`; since the transport emits
a close event after an error event, an error-triggered termination runs it
twice. With user `u1` holding two live connections, terminating ONE of them
via the error path decrements twice (2 to 1 to 0): the first run is silent,
and the second run deletes the counter key and broadcasts a spurious
`presence_offline` (with the last-seen write) while `u1`'s other connection
is still live — refuting "decrements that user's presence count exactly
once" and "exactly one presence_offline when the last of the N connections
disconnects". -/
theorem error_close_double_decrement :
    (finalizeDisconnect stTwoConn sockErr).2.1.userId = some "u1" ∧
    mapGet (finalizeDisconnect stTwoConn sockErr).1.userConnCount "u1" = some 1 ∧
    (finalizeDisconnect stTwoConn sockErr).2.2 = [] ∧
    mapGet (finalizeDisconnect (finalizeDisconnect stTwoConn sockErr).1
        (finalizeDisconnect stTwoConn sockErr).2.1).1.userConnCount "u1" = none ∧
    (finalizeDisconnect (finalizeDisconnect stTwoConn sockErr).1
        (finalizeDisconnect stTwoConn sockErr).2.1).2.2
      = [HubAction.broadcastAll (ServerEvent.presence_offline "u1"),
         HubAction.dbWrite (DbWrite.setLastSeen "u1")] := by
  refine ⟨by decide, by decide, by decide, by decide, by decide⟩
